import Mathlib

/-!
GraphDaw synthesizer core: shallow embedding and verified properties.

The definitions below transcribe `src/graphdaw.h` and `src/graphdaw.cpp`.

Conventions of the embedding:

* `float`/`double` values are exact rationals (`ℚ`); the rounding of arithmetic
  results is not modelled. The explicit conversion `float(pos - attack_t)` of a
  sample count in `Glide::get_value` is modelled: it rounds the count to binary32.
* `uint64_t` positions are natural numbers; every `uint64_t` subtraction and
  addition of the source is reduced modulo `2^64` explicitly.
* `int` values are integers (`Int`).
* C arrays of fixed size `n` are functions out of `Fin n`.
* Mutating methods return the updated object; a method that both returns a
  value and mutates returns a pair.
* Library functions that are not part of the repository (`sin`, `pow`, the
  constant `Math_TAU` and Godot's `RandomNumberGenerator`) are collected in
  the structure `Ext` and passed as a parameter.
-/

namespace GraphDaw

/-! ## Constants -/

/-- The macro `MIX_RATE` of `graphdaw.h`. -/
def MIX_RATE : ℚ := 44100

/-- The macro `AMP_T` of `graphdaw.h`. -/
def AMP_T : ℚ := 2147483647

/-- The enumerator `FMASound::PARTIALS`. -/
abbrev PARTIALS : Nat := 5

/-- The enumerator `FMASynthStream::POLYPHONY`. -/
abbrev POLYPHONY : Nat := 4

/-- The number of values of a `uint64_t`. -/
abbrev U64 : Nat := 2 ^ 64

/-! ## Machine arithmetic and library functions -/

/-- The `uint64_t` difference `a - b`, wrapping modulo `2^64`. -/
def u64sub (a b : Nat) : Nat := (a % U64 + (U64 - b % U64)) % U64

/-- The `uint64_t` sum `a + b`, wrapping modulo `2^64`. -/
def u64add (a b : Nat) : Nat := (a + b) % U64

/-- The `uint64_t` sum `a + n` for a signed `int` value `n`, wrapping modulo `2^64`. -/
def u64addInt (a : Nat) (n : Int) : Nat := (((a : Int) + n) % (U64 : Int)).toNat

/-- The spacing of binary32 numbers around a `uint64_t` value `n`: `1` below
`2^24`, and otherwise `2^k` for the least `k` with `n / 2^k < 2^24`, found by
halving `n`. The first argument bounds the number of halvings; `40` suffice
for every `n < 2^64`. -/
def float_ulp : Nat → Nat → Nat
  | 0, _ => 1
  | k + 1, n => if n < 2 ^ 24 then 1 else 2 * float_ulp k (n / 2)

/-- The conversion `float(n)` of a `uint64_t` value to binary32: the nearest
multiple of the spacing at `n`, that is the nearest number with a 24-bit
significand, ties going to the even significand. Values below `2^24` are
exact; a `uint64_t` never overflows the binary32 range. -/
def float_of_u64 (n : Nat) : ℚ :=
  let ulp : Nat := float_ulp 40 n
  let q : Nat := n / ulp
  let r : Nat := n % ulp
  if 2 * r < ulp ∨ (2 * r = ulp ∧ q % 2 = 0) then ((q * ulp : Nat) : ℚ)
  else (((q + 1) * ulp : Nat) : ℚ)

/-- Conversion of a floating value to an integer, truncating toward zero
(the C cast `(int)value` and the implicit conversion on assignment). -/
def truncToInt (q : ℚ) : Int := if 0 ≤ q then ⌊q⌋ else ⌈q⌉

/-- The C library function `fmod`: `x - y * trunc (x / y)`. -/
def fmod (x y : ℚ) : ℚ := x - y * (truncToInt (x / y) : ℚ)

/-- Functions and constants used by the source that come from outside the
repository: `sin`, `pow`, `Math_TAU` and the random number generator
(`randf_range` maps a generator state and a range to a value and the next
state). -/
structure Ext where
  sin : ℚ → ℚ
  pow : ℚ → ℚ → ℚ
  Math_TAU : ℚ
  randf_range : Nat → ℚ → ℚ → ℚ × Nat

/-- A concrete choice of the external functions, used only to evaluate the
model on concrete inputs. -/
def Ext.sample : Ext where
  sin := fun _ => 0
  pow := fun _ _ => 1
  Math_TAU := 6283185 / 1000000
  randf_range := fun s _ _ => (0, s + 1)

/-! ## Osc -/

/-- The class `Osc`: `phase`, the generator `r` (its state) and `wave_type`. -/
structure Osc where
  phase : ℚ := 0
  r : Nat := 0
  wave_type : Int := 0
  deriving DecidableEq

/-- The method `Osc::gen_sample`: returns the wave value and the oscillator with
its phase advanced. -/
def Osc.gen_sample (E : Ext) (o : Osc) (hz : ℚ) : ℚ × Osc :=
  let wr : ℚ × Nat :=
    if o.wave_type = 0 then (E.sin (o.phase * E.Math_TAU), o.r)
    else if o.wave_type = 1 then ((if o.phase ≥ 1 / 2 then -1 else 1), o.r)
    else if o.wave_type = 2 then (|(|o.phase * 4 - 1| * (-1) + 2)| - 1, o.r)
    else if o.wave_type = 3 then (o.phase * 2 - 1, o.r)
    else if o.wave_type = 4 then E.randf_range o.r (-1) 1
    else (0, o.r)
  let inc : ℚ := hz / MIX_RATE
  (wr.1, { o with phase := fmod (o.phase + inc) 1, r := wr.2 })

/-- The method `Osc::set_phase`. -/
def Osc.set_phase (o : Osc) (p : ℚ) : Osc := { o with phase := p }

/-- A finite sequence of `Osc::gen_sample` calls, one for each frequency of the
list, in order; the result is the oscillator after the last call. -/
def Osc.gen_samples (E : Ext) (o : Osc) : List ℚ → Osc
  | [] => o
  | hz :: hzs => Osc.gen_samples E (o.gen_sample E hz).2 hzs

/-! ## Glide -/

/-- The class `Glide`. -/
structure Glide where
  attack_t : Nat := 0
  init_val : ℚ := 0
  target_val : ℚ := 0
  length : ℚ
  deriving DecidableEq

/-- The method `Glide::get_value`. -/
def Glide.get_value (g : Glide) (pos : Nat) : ℚ :=
  let val := g.target_val
  let elapsed : ℚ := float_of_u64 (u64sub pos g.attack_t) * (1000 / MIX_RATE)
  if g.length > 0 ∧ elapsed < g.length then
    (elapsed / g.length) * (val - g.init_val) + g.init_val
  else val

/-- The method `Glide::start_glide`. -/
def Glide.start_glide (g : Glide) (pos : Nat) (target : ℚ) : Glide :=
  { g with init_val := g.get_value pos, target_val := target, attack_t := pos }

/-! ## LFO -/

/-- The class `LFO`. -/
structure LFO where
  osc : Osc := {}
  hz_glide : Glide := { length := 10 }
  amp_glide : Glide := { length := 10 }
  deriving DecidableEq

/-- The method `LFO::reset`; the default argument `init_phase = 0.0` of the
source is passed explicitly by the callers. -/
def LFO.reset (l : LFO) (init_phase : ℚ) : LFO :=
  { l with osc := l.osc.set_phase init_phase }

/-- The method `LFO::set_wave_type`. -/
def LFO.set_wave_type (l : LFO) (wave_type : Int) : LFO :=
  { l with osc := { l.osc with wave_type := wave_type } }

/-- The method `LFO::set_hz`. -/
def LFO.set_hz (l : LFO) (pos : Nat) (hz : ℚ) : LFO :=
  { l with hz_glide := l.hz_glide.start_glide pos hz }

/-- The method `LFO::set_amp`. -/
def LFO.set_amp (l : LFO) (pos : Nat) (amp : ℚ) : LFO :=
  { l with amp_glide := l.amp_glide.start_glide pos amp }

/-- The method `LFO::get_value`: the value and the LFO with its oscillator advanced. -/
def LFO.get_value (E : Ext) (l : LFO) (pos : Nat) : ℚ × LFO :=
  let wo := l.osc.gen_sample E (l.hz_glide.get_value pos)
  (((wo.1 + 1) / 2) * l.amp_glide.get_value pos, { l with osc := wo.2 })

/-! ## Env -/

/-- The class `Env`. -/
structure Env where
  held : Bool := false
  velocity : ℚ := 0
  attack_t : Nat := 0
  release_t : Nat := 0
  init_val : ℚ := 0
  inter_val : ℚ := 0
  attack : ℚ := 5
  decay : ℚ := 5
  sustain : ℚ := 1
  deriving DecidableEq

/-- The method `Env::get_value`. -/
def Env.get_value (e : Env) (pos : Nat) : ℚ :=
  let elapsed : ℚ := (u64sub pos e.attack_t : ℚ) * (1000 / MIX_RATE)
  let elapsed_stop : ℚ := (u64sub pos e.release_t : ℚ) * (1000 / MIX_RATE)
  if e.held = true ∧ elapsed < e.attack then
    (elapsed / e.attack) * (e.velocity - e.init_val) + e.init_val
  else if e.held = true ∧ elapsed < e.attack + e.decay then
    let low := e.velocity * e.sustain
    let gap := e.velocity - low
    ((1 - ((elapsed - e.attack) / e.decay)) * gap) + low
  else if e.held = true then
    e.velocity * e.sustain
  else if elapsed_stop < e.decay then
    (1 - (elapsed_stop / e.decay)) * e.inter_val
  else 0

/-- The method `Env::start_attack`. -/
def Env.start_attack (e : Env) (pos : Nat) (vel : ℚ) : Env :=
  { e with init_val := e.get_value pos, velocity := vel, attack_t := pos, held := true }

/-- The method `Env::start_release`. -/
def Env.start_release (e : Env) (pos : Nat) : Env :=
  { e with inter_val := e.get_value pos, release_t := pos, held := false }

/-- The envelope of the worked example before the attack: silent (not held,
`init_val = inter_val = 0`) with `attack = 100`, `decay = 200`, `sustain = 0.5`;
the remaining fields are arbitrary. -/
def Env.example_silent (velocity : ℚ) (attack_t release_t : Nat) : Env :=
  { held := false, velocity := velocity, attack_t := attack_t, release_t := release_t,
    init_val := 0, inter_val := 0, attack := 100, decay := 200, sustain := 1 / 2 }

/-! ## Voice -/

/-- The class `Voice`. -/
structure Voice where
  pitch : Glide := { length := 0 }
  volume : Glide := { length := 10 }
  vibrato : LFO := {}
  env : Env := {}
  deriving DecidableEq

/-- The method `Voice::get_hz`: the frequency and the voice with its vibrato advanced. -/
def Voice.get_hz (E : Ext) (v : Voice) (pos : Nat) : ℚ × Voice :=
  let hz := v.pitch.get_value pos
  let vl := v.vibrato.get_value E pos
  let vib := vl.1
  (hz + (hz / (168 / 10)) * (vib * vib * 2 - 1), { v with vibrato := vl.2 })

/-- The method `Voice::get_env`. -/
def Voice.get_env (v : Voice) (pos : Nat) : ℚ := v.env.get_value pos

/-- The method `Voice::get_amp`. -/
def Voice.get_amp (v : Voice) (pos : Nat) : ℚ :=
  v.env.get_value pos * v.volume.get_value pos

/-- The method `Voice::note_on`. -/
def Voice.note_on (E : Ext) (v : Voice) (pos : Nat) (note : Int) (velocity : ℚ) : Voice :=
  { v with
    pitch := v.pitch.start_glide pos (440 * E.pow 2 (((note : ℚ) - 69) / 12)),
    env := v.env.start_attack pos velocity }

/-- The method `Voice::note_off`. -/
def Voice.note_off (v : Voice) (pos : Nat) : Voice :=
  { v with env := v.env.start_release pos }

/-- The method `Voice::set_volume`. -/
def Voice.set_volume (v : Voice) (pos : Nat) (value : ℚ) : Voice :=
  { v with volume := v.volume.start_glide pos (value * value) }

/-- The method `Voice::set_attack`. -/
def Voice.set_attack (v : Voice) (value : ℚ) : Voice :=
  { v with env := { v.env with attack := value * value * 995 + 5 } }

/-- The method `Voice::set_decay`. -/
def Voice.set_decay (v : Voice) (value : ℚ) : Voice :=
  { v with env := { v.env with decay := value * value * 995 + 5 } }

/-- The method `Voice::set_sustain`. -/
def Voice.set_sustain (v : Voice) (value : ℚ) : Voice :=
  { v with env := { v.env with sustain := value * value } }

/-- The method `Voice::set_glide`. -/
def Voice.set_glide (v : Voice) (value : ℚ) : Voice :=
  { v with pitch := { v.pitch with length := value * value * 2000 } }

/-- The method `Voice::set_vibrato`. -/
def Voice.set_vibrato (v : Voice) (pos : Nat) (value : ℚ) : Voice :=
  let w := value * value
  { v with vibrato := (v.vibrato.set_amp pos w).set_hz pos (w * 3 + 4) }

/-! ## FMASound -/

/-- The class `FMASound`. -/
structure FMASound where
  pos : Nat := 0
  oscs : Fin PARTIALS → Osc
  mod : Osc
  voice : Voice := {}
  partials_lfos : Fin (PARTIALS - 1) → LFO
  partials_glide : Glide := { length := 10 }
  fm_ratio : ℚ := 0
  fm_amp : ℚ := 0
  deriving DecidableEq

/-- The constructor `FMASound::FMASound`. Every `Osc` constructor randomizes its
generator; `seed k` is the resulting generator state of the `k`-th oscillator
(carriers `0..4`, modulator `5`, vibrato `6`, wobble LFOs `7..10`). -/
def FMASound.new (seed : Nat → Nat) : FMASound where
  oscs := fun i => { r := seed i.val }
  mod := { r := seed 5 }
  voice := { vibrato := { osc := { r := seed 6 } } }
  partials_lfos := fun i =>
    LFO.set_hz { osc := { r := seed (7 + i.val) } } 0 (((PARTIALS : ℚ) - (i.val : ℚ)) / 5)

/-- The method `FMASound::get_partial_vol`. -/
def FMASound.get_partial_vol (s : FMASound) (p : Int) : ℚ :=
  if p = 0 then 1
  else
    let region : ℚ := 1 / ((PARTIALS - 1 : Nat) : ℚ)
    let begin_ : ℚ := region * ((p - 1 : Int) : ℚ)
    let end_ : ℚ := region * (p : ℚ)
    let value := s.partials_glide.get_value s.pos
    let ret : ℚ :=
      if value ≥ begin_ then
        if value < end_ then (value - begin_) * ((PARTIALS - 1 : Nat) : ℚ) else 1
      else 0
    ret * (7 / 10)

/-- The method `FMASound::reset`. -/
def FMASound.reset (s : FMASound) : FMASound :=
  { s with
    pos := 0,
    oscs := fun i => (s.oscs i).set_phase 0,
    mod := s.mod.set_phase 0,
    voice := s.voice.note_off 0,
    partials_lfos := fun i => (s.partials_lfos i).reset 0 }

/-- One iteration of the inner loop of `FMASound::gen_sound` for the partial
`i = j + 1`: advances `oscs[i]` and `partials_lfos[i - 1]` and adds the
partial to `sample`. -/
def FMASound.partial_step (E : Ext) (hz : ℚ) (acc : ℚ × FMASound) (j : Fin (PARTIALS - 1)) :
    ℚ × FMASound :=
  let s := acc.2
  let i : Fin PARTIALS := ⟨j.val + 1, by omega⟩
  let wo := (s.oscs i).gen_sample E (hz * ((i.val : ℚ) + 1))
  let ll := (s.partials_lfos j).get_value E s.pos
  (acc.1 + wo.1 * (1 - ll.1) * s.get_partial_vol (i.val : Int),
   { s with oscs := Function.update s.oscs i wo.2,
            partials_lfos := Function.update s.partials_lfos j ll.2 })

/-- The body of the sample loop of `FMASound::gen_sound`: adds one sample into
`pcm_buf[idx]` and advances `pos`. -/
def FMASound.sample_step (E : Ext) (s : FMASound) (pcm_buf : List Int) (idx : Nat) :
    List Int × FMASound :=
  let hv := s.voice.get_hz E s.pos
  let hz := hv.1
  let s1 : FMASound := { s with voice := hv.2 }
  let mo := s1.mod.gen_sample E (hz * s1.fm_ratio)
  let m := mo.1
  let s2 : FMASound := { s1 with mod := mo.2 }
  let co := (s2.oscs 0).gen_sample E (hz + m * s2.fm_amp)
  let s3 : FMASound := { s2 with oscs := Function.update s2.oscs 0 co.2 }
  let ps := (List.finRange (PARTIALS - 1)).foldl (FMASound.partial_step E hz) (co.1, s3)
  let sample := ps.1
  let s4 := ps.2
  let out : Int := truncToInt (((pcm_buf.getD idx 0 : Int) : ℚ) + AMP_T * s4.voice.get_amp s4.pos * sample)
  (pcm_buf.set idx out, { s4 with pos := u64add s4.pos 1 })

/-- The sample loop of `FMASound::gen_sound`: `n` iterations starting at buffer
index `idx`. -/
def FMASound.gen_loop (E : Ext) : Nat → Nat → FMASound → List Int → List Int × FMASound
  | 0, _, s, pcm_buf => (pcm_buf, s)
  | n + 1, idx, s, pcm_buf =>
    let r := s.sample_step E pcm_buf idx
    FMASound.gen_loop E n (idx + 1) r.2 r.1

/-- The method `FMASound::gen_sound`; the loop `for (s = 0; s < size; s++)` runs
`size` times for positive `size` and not at all otherwise. -/
def FMASound.gen_sound (E : Ext) (s : FMASound) (pcm_buf : List Int) (size : Int) :
    List Int × FMASound :=
  FMASound.gen_loop E size.toNat 0 s pcm_buf

/-- The method `FMASound::get_env`. -/
def FMASound.get_env (s : FMASound) : ℚ := s.voice.get_env s.pos

/-- The method `FMASound::set_base_wave_type`. -/
def FMASound.set_base_wave_type (s : FMASound) (t : Int) : FMASound :=
  if t ≥ 0 ∧ t < 5 then
    { s with oscs := Function.update s.oscs 0 { s.oscs 0 with wave_type := t },
             mod := { s.mod with wave_type := t } }
  else s

/-- The method `FMASound::set_partials_wave_type`. -/
def FMASound.set_partials_wave_type (s : FMASound) (t : Int) : FMASound :=
  if t ≥ 0 ∧ t < 5 then
    { s with oscs := fun i => if 1 ≤ i.val then { s.oscs i with wave_type := t } else s.oscs i }
  else s

/-- The method `FMASound::set_partials`. -/
def FMASound.set_partials (s : FMASound) (value : ℚ) : FMASound :=
  { s with partials_glide := s.partials_glide.start_glide s.pos value }

/-- The method `FMASound::set_partials_wobble`. -/
def FMASound.set_partials_wobble (s : FMASound) (value : ℚ) : FMASound :=
  { s with partials_lfos := fun i => (s.partials_lfos i).set_amp s.pos value }

/-- The method `FMASound::set_fm_ratio`. -/
def FMASound.set_fm_ratio (s : FMASound) (value : ℚ) : FMASound :=
  { s with fm_ratio := value * 2 }

/-- The method `FMASound::set_fm_amp`. -/
def FMASound.set_fm_amp (s : FMASound) (value : ℚ) : FMASound :=
  { s with fm_amp := value * value * 600 }

/-- The method `FMASound::note_on`. -/
def FMASound.note_on (E : Ext) (s : FMASound) (note : Int) (velocity : ℚ) : FMASound :=
  { s with voice := s.voice.note_on E s.pos note velocity }

/-- The method `FMASound::note_off`. -/
def FMASound.note_off (s : FMASound) : FMASound :=
  { s with voice := s.voice.note_off s.pos }

/-- The method `FMASound::set_volume`. -/
def FMASound.set_volume (s : FMASound) (value : ℚ) : FMASound :=
  { s with voice := s.voice.set_volume s.pos value }

/-- The method `FMASound::set_attack`. -/
def FMASound.set_attack (s : FMASound) (value : ℚ) : FMASound :=
  { s with voice := s.voice.set_attack value }

/-- The method `FMASound::set_decay`. -/
def FMASound.set_decay (s : FMASound) (value : ℚ) : FMASound :=
  { s with voice := s.voice.set_decay value }

/-- The method `FMASound::set_sustain`. -/
def FMASound.set_sustain (s : FMASound) (value : ℚ) : FMASound :=
  { s with voice := s.voice.set_sustain value }

/-- The method `FMASound::set_glide`. -/
def FMASound.set_glide (s : FMASound) (value : ℚ) : FMASound :=
  { s with voice := s.voice.set_glide value }

/-- The method `FMASound::set_vibrato`. -/
def FMASound.set_vibrato (s : FMASound) (value : ℚ) : FMASound :=
  { s with voice := s.voice.set_vibrato s.pos value }

/-! ## FMASynthStream -/

/-- The class `FMASynthStream`: `poly[i]` is the note held by slot `i`, or `-1`. -/
structure FMASynthStream where
  mix_rate : Int := 44100
  pos : Nat := 0
  voices : Fin POLYPHONY → FMASound
  poly : Fin POLYPHONY → Int
  deriving DecidableEq

/-- The constructor `FMASynthStream::FMASynthStream`; slot `i` draws the
generator states `seed (11 * i) .. seed (11 * i + 10)`. -/
def FMASynthStream.new (seed : Nat → Nat) : FMASynthStream where
  voices := fun i => FMASound.new (fun k => seed (11 * i.val + k))
  poly := fun _ => -1

/-- The loop `for (i = 0; i < POLYPHONY; ++i) if (poly[i] == v) return i;`
shared by both phases of `choose_voice`: the first slot whose entry is `v`. -/
def FMASynthStream.first_slot (s : FMASynthStream) (v : Int) : Option (Fin POLYPHONY) :=
  (List.finRange POLYPHONY).find? (fun i => decide (s.poly i = v))

/-- The method `FMASynthStream::choose_voice`. -/
def FMASynthStream.choose_voice (s : FMASynthStream) (note : Int) : Fin POLYPHONY :=
  match s.first_slot note with
  | some i => i
  | none =>
    match s.first_slot (-1) with
    | some i => i
    | none => 0

/-- The method `FMASynthStream::set_position`. -/
def FMASynthStream.set_position (s : FMASynthStream) (p : Nat) : FMASynthStream :=
  { s with pos := p }

/-- The method `FMASynthStream::reset`. -/
def FMASynthStream.reset (s : FMASynthStream) : FMASynthStream :=
  let s1 := s.set_position 0
  { s1 with voices := fun i => (s1.voices i).reset, poly := fun _ => -1 }

/-- One iteration of the loop of `FMASynthStream::gen_sound`: slot `i` renders
into the shared buffer. -/
def FMASynthStream.gen_slot (E : Ext) (size : Int) (acc : List Int × FMASynthStream)
    (i : Fin POLYPHONY) : List Int × FMASynthStream :=
  let r := (acc.2.voices i).gen_sound E acc.1 size
  (r.1, { acc.2 with voices := Function.update acc.2.voices i r.2 })

/-- The method `FMASynthStream::gen_sound`. -/
def FMASynthStream.gen_sound (E : Ext) (s : FMASynthStream) (pcm_buf : List Int) (size : Int) :
    List Int × FMASynthStream :=
  let r := (List.finRange POLYPHONY).foldl (FMASynthStream.gen_slot E size) (pcm_buf, s)
  (r.1, { r.2 with pos := u64addInt r.2.pos size })

/-- The method `FMASynthStream::note_off`. -/
def FMASynthStream.note_off (s : FMASynthStream) (note : Int) : FMASynthStream :=
  let voice := s.choose_voice note
  { s with voices := Function.update s.voices voice (s.voices voice).note_off,
           poly := Function.update s.poly voice (-1) }

/-- The method `FMASynthStream::note_on`. -/
def FMASynthStream.note_on (E : Ext) (s : FMASynthStream) (note : Int) (velocity : ℚ) :
    FMASynthStream :=
  if velocity = 0 then s.note_off note
  else
    let voice := s.choose_voice note
    { s with voices := Function.update s.voices voice ((s.voices voice).note_on E note velocity),
             poly := Function.update s.poly voice note }

/-- The body of the `switch` of `FMASynthStream::set_param` for one slot. -/
def FMASound.set_param (s : FMASound) (param : Int) (value : ℚ) : FMASound :=
  if param = 0 then s.set_volume value
  else if param = 1 then s.set_vibrato value
  else if param = 2 then s.set_partials value
  else if param = 3 then s.set_partials_wobble value
  else if param = 4 then s.set_base_wave_type (truncToInt value)
  else if param = 5 then s.set_partials_wave_type (truncToInt value)
  else if param = 6 then s.set_fm_ratio value
  else if param = 7 then s.set_fm_amp value
  else if param = 8 then s.set_glide value
  else if param = 9 then s.set_attack value
  else if param = 10 then s.set_decay value
  else if param = 11 then s.set_sustain value
  else s

/-- The method `FMASynthStream::set_param`. -/
def FMASynthStream.set_param (s : FMASynthStream) (param : Int) (value : ℚ) : FMASynthStream :=
  { s with voices := fun i => (s.voices i).set_param param value }

/-- The method `FMASynthStream::get_env`. -/
def FMASynthStream.get_env (s : FMASynthStream) : ℚ :=
  (List.finRange POLYPHONY).foldl
    (fun ret i => let e := (s.voices i).get_env; if e > ret then e else ret) 0

/-! ## Auxiliary definitions for the statements -/

/-- A concrete choice of the external functions whose `pow` is exact at integer
exponents (`pow b n = b ^ n`); the other components are those of `Ext.sample`. -/
def Ext.exact_pow : Ext where
  sin := Ext.sample.sin
  pow := fun b x => if x.den = 1 then b ^ x.num else 1
  Math_TAU := Ext.sample.Math_TAU
  randf_range := Ext.sample.randf_range

/-- The cross-fade shape in closed form:
`0.7 * clamp((a - (p - 1) / (PARTIALS - 1)) * (PARTIALS - 1), 0, 1)`. -/
def partial_vol_shape (a : ℚ) (p : Int) : ℚ :=
  7 / 10 * max 0 (min 1 ((a - ((p : ℚ) - 1) / ((PARTIALS : ℚ) - 1)) * ((PARTIALS : ℚ) - 1)))

/-- The engine state reached from a fresh engine by starting the notes
`60, 61, 62, 63` with velocity `-1` and rendering one sample. -/
def FMASynthStream.negative_velocity_example : FMASynthStream :=
  ((((((FMASynthStream.new (fun _ => 0)).note_on Ext.sample 60 (-1)).note_on Ext.sample
    61 (-1)).note_on Ext.sample 62 (-1)).note_on Ext.sample 63 (-1)).gen_sound Ext.sample
    [0] 1).2

/-- The timbre parameters of a slot: the state that `set_param` writes and
reads, that is the volume glide, the glides of the vibrato LFO, the
partial-amount glide, the glides of the wobble LFOs, the wave types of the
carriers and of the modulator, `fm_ratio`, `fm_amp`, the pitch glide length and
the envelope's `attack`, `decay` and `sustain`. -/
structure Timbre where
  volume : Glide
  vibrato_hz : Glide
  vibrato_amp : Glide
  partials_glide : Glide
  wobble_hz : Fin (PARTIALS - 1) → Glide
  wobble_amp : Fin (PARTIALS - 1) → Glide
  wave_types : Fin PARTIALS → Int
  mod_wave_type : Int
  fm_ratio : ℚ
  fm_amp : ℚ
  glide_length : ℚ
  attack : ℚ
  decay : ℚ
  sustain : ℚ

/-- The timbre parameters of a sound. -/
def FMASound.timbre (s : FMASound) : Timbre where
  volume := s.voice.volume
  vibrato_hz := s.voice.vibrato.hz_glide
  vibrato_amp := s.voice.vibrato.amp_glide
  partials_glide := s.partials_glide
  wobble_hz := fun k => (s.partials_lfos k).hz_glide
  wobble_amp := fun k => (s.partials_lfos k).amp_glide
  wave_types := fun k => (s.oscs k).wave_type
  mod_wave_type := s.mod.wave_type
  fm_ratio := s.fm_ratio
  fm_amp := s.fm_amp
  glide_length := s.voice.pitch.length
  attack := s.voice.env.attack
  decay := s.voice.env.decay
  sustain := s.voice.env.sustain

/-- The engine states reachable from a freshly constructed engine through the
public operations `reset`, `set_position`, `note_on`, `note_off`, `set_param`
and `gen_sound`, with arbitrary arguments. -/
inductive FMASynthStream.Reachable (E : Ext) : FMASynthStream → Prop
  | new (seed : Nat → Nat) : FMASynthStream.Reachable E (FMASynthStream.new seed)
  | reset (s : FMASynthStream) :
      FMASynthStream.Reachable E s → FMASynthStream.Reachable E s.reset
  | set_position (s : FMASynthStream) (p : Nat) :
      FMASynthStream.Reachable E s → FMASynthStream.Reachable E (s.set_position p)
  | note_on (s : FMASynthStream) (note : Int) (velocity : ℚ) :
      FMASynthStream.Reachable E s → FMASynthStream.Reachable E (s.note_on E note velocity)
  | note_off (s : FMASynthStream) (note : Int) :
      FMASynthStream.Reachable E s → FMASynthStream.Reachable E (s.note_off note)
  | set_param (s : FMASynthStream) (param : Int) (value : ℚ) :
      FMASynthStream.Reachable E s → FMASynthStream.Reachable E (s.set_param param value)
  | gen_sound (s : FMASynthStream) (pcm_buf : List Int) (size : Int) :
      FMASynthStream.Reachable E s →
      FMASynthStream.Reachable E (s.gen_sound E pcm_buf size).2

/-- A division that fails unless the divisor is strictly positive. -/
def checked_div (a b : ℚ) : Option ℚ := if 0 < b then some (a / b) else none

/-- The method `Glide::get_value` with its division by `length` checked: the
result is `none` if the division is reached with a divisor that is not strictly
positive. -/
def Glide.get_value_checked (g : Glide) (pos : Nat) : Option ℚ :=
  let val := g.target_val
  let elapsed : ℚ := float_of_u64 (u64sub pos g.attack_t) * (1000 / MIX_RATE)
  if g.length > 0 ∧ elapsed < g.length then
    (checked_div elapsed g.length).map (fun q => q * (val - g.init_val) + g.init_val)
  else some val

/-- The method `Env::get_value` with its divisions by `attack` and `decay`
checked: the result is `none` if a division is reached with a divisor that is
not strictly positive. -/
def Env.get_value_checked (e : Env) (pos : Nat) : Option ℚ :=
  let elapsed : ℚ := (u64sub pos e.attack_t : ℚ) * (1000 / MIX_RATE)
  let elapsed_stop : ℚ := (u64sub pos e.release_t : ℚ) * (1000 / MIX_RATE)
  if e.held = true ∧ elapsed < e.attack then
    (checked_div elapsed e.attack).map (fun q => q * (e.velocity - e.init_val) + e.init_val)
  else if e.held = true ∧ elapsed < e.attack + e.decay then
    let low := e.velocity * e.sustain
    let gap := e.velocity - low
    (checked_div (elapsed - e.attack) e.decay).map (fun q => ((1 - q) * gap) + low)
  else if e.held = true then
    some (e.velocity * e.sustain)
  else if elapsed_stop < e.decay then
    (checked_div elapsed_stop e.decay).map (fun q => (1 - q) * e.inter_val)
  else some 0

/-- The divisors of a slot are in range: `attack` and `decay` are at least `5`
and the length of every glide is non-negative. -/
def Timbre.divisors_ok (t : Timbre) : Prop :=
  5 ≤ t.attack ∧ 5 ≤ t.decay ∧ 0 ≤ t.glide_length ∧ 0 ≤ t.volume.length ∧
  0 ≤ t.vibrato_hz.length ∧ 0 ≤ t.vibrato_amp.length ∧ 0 ≤ t.partials_glide.length ∧
  (∀ k, 0 ≤ (t.wobble_hz k).length) ∧ (∀ k, 0 ≤ (t.wobble_amp k).length)

/-- The engine state reached from a fresh engine by starting the notes
`60, 61, 62, 63` with velocity `1`, which fills all four slots. -/
def FMASynthStream.full_pool_example : FMASynthStream :=
  ((((FMASynthStream.new (fun _ => 0)).note_on Ext.sample 60 1).note_on Ext.sample
    61 1).note_on Ext.sample 62 1).note_on Ext.sample 63 1

/-- The engine state reached from a fresh engine by: selecting the square wave
for carrier and modulator (`set_param 4 1`), setting the FM ratio to `2`
(`set_param 6 1`), starting note `117` and rendering two samples, which moves
the modulator phase past `0.5`; then freezing the modulator (`set_param 6 0`),
setting the FM amount to `600` (`set_param 7 1`) and replacing the note by
note `9` (`note_off 117`, `note_on 9`). All parameter values are in `[0, 1]`. -/
def FMASynthStream.fm_example : FMASynthStream :=
  ((((((((FMASynthStream.new (fun _ => 0)).set_param 4 1).set_param 6 1).note_on
    Ext.exact_pow 117 1).gen_sound Ext.exact_pow [0, 0] 2).2.set_param 6 0).set_param
    7 1).note_off 117).note_on Ext.exact_pow 9 1

end GraphDaw

/-! ## Theorems -/

namespace GraphDaw

/-! ### Machine arithmetic -/

/-- A `uint64_t` position minus itself is `0`. -/
theorem u64sub_self (a : Nat) : u64sub a a = 0 := by
  unfold u64sub U64; omega

/-- The `uint64_t` distance from `a` to `a + k` is `k` modulo `2^64`. -/
theorem u64sub_add_left (a k : Nat) : u64sub (a + k) a = k % 2 ^ 64 := by
  unfold u64sub U64; omega

/-- Without wrap-around the `uint64_t` difference is the ordinary difference. -/
theorem u64sub_of_le (a b : Nat) (h : b ≤ a) (ha : a < 2 ^ 64) : u64sub a b = a - b := by
  unfold u64sub U64; omega

/-! ### Glide -/

/-- The conversion `float(n)` is exact for a count below `2^24`. -/
theorem float_of_u64_of_lt (n : Nat) (h : n < 2 ^ 24) : float_of_u64 n = (n : ℚ) := by
  have hu : float_ulp 40 n = 1 := by
    simp only [float_ulp, if_pos h]
  simp [float_of_u64, hu, Nat.mod_one]

/-- A glide with positive length queried at its own start position returns
`init_val`. -/
theorem Glide.get_value_attack_t (g : Glide) (h : 0 < g.length) :
    g.get_value g.attack_t = g.init_val := by
  simp [Glide.get_value, u64sub_self, float_of_u64_of_lt, h]

/-- A glide whose length is not positive returns `target_val` everywhere. -/
theorem Glide.get_value_of_length_nonpos (g : Glide) (pos : Nat) (h : g.length ≤ 0) :
    g.get_value pos = g.target_val := by
  simp [Glide.get_value, not_lt.mpr h]

/-- C1 (as amended): for a glide whose ramp length is positive, the value at
`pos` right after `start_glide pos target` equals the value at `pos` right
before it, and it is the stored `init_val`. -/
theorem Glide.start_glide_continuous (g : Glide) (pos : Nat) (target : ℚ)
    (h : 0 < g.length) :
    (g.start_glide pos target).get_value pos = g.get_value pos ∧
    (g.start_glide pos target).get_value pos = (g.start_glide pos target).init_val := by
  have key := Glide.get_value_attack_t (g.start_glide pos target) h
  exact ⟨key, key⟩

/-- Witness for C1 (as amended): a 10 ms glide half-way through its ramp from
`0` to `1`, retriggered toward `5` at position `220`. -/
theorem Glide.start_glide_continuous_witness :
    (0 : ℚ) < (10 : ℚ) ∧
    ((Glide.mk 0 0 1 10).start_glide 220 5).get_value 220 = (Glide.mk 0 0 1 10).get_value 220 ∧
    ((Glide.mk 0 0 1 10).start_glide 220 5).get_value 220 =
      ((Glide.mk 0 0 1 10).start_glide 220 5).init_val :=
  ⟨by norm_num, Glide.start_glide_continuous (Glide.mk 0 0 1 10) 220 5 (by norm_num)⟩

/-- C1 (counterexample): the pitch glide of a fresh `Voice` has length `0`; it
returns `0` at position `0` before `start_glide 0 440` and `440` right after,
so the retrigger jumps. -/
theorem Glide.start_glide_jump_of_zero_length :
    (({} : Voice).pitch).length = 0 ∧
    (({} : Voice).pitch).get_value 0 = 0 ∧
    ((({} : Voice).pitch).start_glide 0 440).get_value 0 = 440 ∧
    ((({} : Voice).pitch).start_glide 0 440).get_value 0 ≠ (({} : Voice).pitch).get_value 0 := by
  simp [Glide.start_glide, Glide.get_value]

/-- C2 (as amended): a glide queried at a position `pos ≥ attack_t` with
`float(pos - attack_t) * 1000 / 44100 ≥ length`, where `float` is the binary32
conversion the source applies to the sample count, returns exactly
`target_val`. The conversion is exact below `2^24` samples, so for
`pos - attack_t < 2^24` the condition is
`(pos - attack_t) * 1000 / 44100 ≥ length`. A glide of length `0` returns
`target_val` at every position. -/
theorem Glide.get_value_reaches_target (g : Glide) :
    (∀ pos : Nat, g.attack_t ≤ pos → pos < 2 ^ 64 →
        g.length ≤ float_of_u64 (pos - g.attack_t) * 1000 / 44100 →
        g.get_value pos = g.target_val) ∧
    (∀ pos : Nat, g.attack_t ≤ pos → pos < 2 ^ 64 → pos - g.attack_t < 2 ^ 24 →
        g.length ≤ ((pos - g.attack_t : Nat) : ℚ) * 1000 / 44100 →
        g.get_value pos = g.target_val) ∧
    (g.length = 0 → ∀ pos : Nat, g.get_value pos = g.target_val) := by
  have key : ∀ pos : Nat, g.attack_t ≤ pos → pos < 2 ^ 64 →
      g.length ≤ float_of_u64 (pos - g.attack_t) * 1000 / 44100 →
      g.get_value pos = g.target_val := by
    intro pos hle hpos hlen
    have hsub : u64sub pos g.attack_t = pos - g.attack_t := u64sub_of_le pos g.attack_t hle hpos
    have hnot : ¬ (float_of_u64 (pos - g.attack_t) * (1000 / 44100) < g.length) := by
      rw [not_lt, ← mul_div_assoc]; exact hlen
    simp [Glide.get_value, MIX_RATE, hsub, hnot]
  refine ⟨key, ?_, ?_⟩
  · intro pos hle hpos hsmall hlen
    apply key pos hle hpos
    rw [float_of_u64_of_lt _ hsmall]
    exact hlen
  · intro h0 pos
    exact Glide.get_value_of_length_nonpos g pos (le_of_eq h0)

/-- Witness for C2 (as amended): a 10 ms glide from `0` to `1` started at
position `100` has reached `1` at position `541` (441 samples are 10 ms); a
glide of 380435.9375 ms has reached `1` at `16777226` samples, a count that
`float` represents exactly; and a glide of length `0` returns its target at
position `7`. -/
theorem Glide.get_value_reaches_target_witness :
    (Glide.mk 100 0 1 10).get_value 541 = 1 ∧
    (Glide.mk 0 0 1 (6086975 / 16)).get_value 16777226 = 1 ∧
    (Glide.mk 100 0 1 0).get_value 7 = 1 :=
  ⟨(Glide.get_value_reaches_target (Glide.mk 100 0 1 10)).2.1 541 (by decide) (by norm_num)
      (by norm_num) (by norm_num),
   (Glide.get_value_reaches_target (Glide.mk 0 0 1 (6086975 / 16))).1 16777226 (by decide)
      (by norm_num) (by decide!),
   (Glide.get_value_reaches_target (Glide.mk 100 0 1 0)).2.2 rfl 7⟩

/-- C2 (counterexample): a glide from `0` to `1` of length 380435.9375 ms,
started at position `0`, is queried at position `16777225`. The claim's
condition holds, `16777225 * 1000 / 44100 ≥ 380435.9375`, but `float` rounds
the count to `16777224`, for which the elapsed time is below the length: the
glide is still on its ramp and returns a value below `target_val = 1`. -/
theorem Glide.get_value_below_target_after_ramp :
    (Glide.mk 0 0 1 (6086975 / 16)).attack_t ≤ 16777225 ∧
    (Glide.mk 0 0 1 (6086975 / 16)).length ≤
      ((16777225 - (Glide.mk 0 0 1 (6086975 / 16)).attack_t : Nat) : ℚ) * 1000 / 44100 ∧
    float_of_u64 16777225 = 16777224 ∧
    (Glide.mk 0 0 1 (6086975 / 16)).get_value 16777225 < 1 ∧
    (Glide.mk 0 0 1 (6086975 / 16)).get_value 16777225 ≠
      (Glide.mk 0 0 1 (6086975 / 16)).target_val := by
  decide!

/-! ### Env -/

/-- The envelope of the worked example after `start_attack p0 1`. -/
theorem Env.example_silent_start_attack (v : ℚ) (a r p0 : Nat) :
    (Env.example_silent v a r).start_attack p0 1 =
      { held := true, velocity := 1, attack_t := p0, release_t := r, init_val := 0,
        inter_val := 0, attack := 100, decay := 200, sustain := 1 / 2 } := by
  simp [Env.example_silent, Env.start_attack, Env.get_value]

/-- A held envelope evaluated `k` samples after its attack position. -/
theorem Env.get_value_held_add (e : Env) (k : Nat) (hk : k < 2 ^ 64) (hh : e.held = true) :
    e.get_value (e.attack_t + k) =
      if (k : ℚ) * (1000 / 44100) < e.attack then
        ((k : ℚ) * (1000 / 44100) / e.attack) * (e.velocity - e.init_val) + e.init_val
      else if (k : ℚ) * (1000 / 44100) < e.attack + e.decay then
        (1 - ((k : ℚ) * (1000 / 44100) - e.attack) / e.decay) *
          (e.velocity - e.velocity * e.sustain) + e.velocity * e.sustain
      else e.velocity * e.sustain := by
  have hmod : u64sub (e.attack_t + k) e.attack_t = k := by
    rw [u64sub_add_left]; exact Nat.mod_eq_of_lt hk
  simp [Env.get_value, hmod, hh, MIX_RATE]

/-- A released envelope evaluated `k` samples after its release position. -/
theorem Env.get_value_released_add (e : Env) (k : Nat) (hk : k < 2 ^ 64) (hh : e.held = false) :
    e.get_value (e.release_t + k) =
      if (k : ℚ) * (1000 / 44100) < e.decay then
        (1 - (k : ℚ) * (1000 / 44100) / e.decay) * e.inter_val
      else 0 := by
  have hmod : u64sub (e.release_t + k) e.release_t = k := by
    rw [u64sub_add_left]; exact Nat.mod_eq_of_lt hk
  simp [Env.get_value, hmod, hh, MIX_RATE]

/-- C3: the envelope worked example. Starting silent with `attack = 100`,
`decay = 200`, `sustain = 0.5`, after `start_attack p0 1` the value is `0.5` at
`p0 + 2205`, `1` at `p0 + 4410` and `0.75` at `p0 + 8820`; after
`start_release (p0 + 8820)` the value at `p0 + 8820` is still `0.75`, it falls
linearly (by `0.75 / 8820` per sample) over the next `8820` samples, and it is
`0` at `p0 + 8820 + 8820` and at every later position. -/
theorem Env.worked_example (v : ℚ) (a r p0 : Nat) :
    ((Env.example_silent v a r).start_attack p0 1).get_value (p0 + 2205) = 1 / 2 ∧
    ((Env.example_silent v a r).start_attack p0 1).get_value (p0 + 4410) = 1 ∧
    ((Env.example_silent v a r).start_attack p0 1).get_value (p0 + 8820) = 3 / 4 ∧
    (((Env.example_silent v a r).start_attack p0 1).start_release (p0 + 8820)).get_value
        (p0 + 8820) = 3 / 4 ∧
    (∀ k : Nat, k ≤ 8820 →
      (((Env.example_silent v a r).start_attack p0 1).start_release (p0 + 8820)).get_value
        (p0 + 8820 + k) = 3 / 4 - (3 / 4 / 8820) * (k : ℚ)) ∧
    (((Env.example_silent v a r).start_attack p0 1).start_release (p0 + 8820)).get_value
        (p0 + 8820 + 8820) = 0 ∧
    (∀ k : Nat, 8820 ≤ k → k < 2 ^ 64 →
      (((Env.example_silent v a r).start_attack p0 1).start_release (p0 + 8820)).get_value
        (p0 + 8820 + k) = 0) := by
  rw [Env.example_silent_start_attack]
  have h1 := Env.get_value_held_add
    { held := true, velocity := 1, attack_t := p0, release_t := r, init_val := 0,
      inter_val := 0, attack := 100, decay := 200, sustain := 1 / 2 } 2205 (by norm_num) rfl
  have h2 := Env.get_value_held_add
    { held := true, velocity := 1, attack_t := p0, release_t := r, init_val := 0,
      inter_val := 0, attack := 100, decay := 200, sustain := 1 / 2 } 4410 (by norm_num) rfl
  have h3 := Env.get_value_held_add
    { held := true, velocity := 1, attack_t := p0, release_t := r, init_val := 0,
      inter_val := 0, attack := 100, decay := 200, sustain := 1 / 2 } 8820 (by norm_num) rfl
  norm_num at h1 h2 h3
  have hrel : (Env.start_release
      { held := true, velocity := 1, attack_t := p0, release_t := r, init_val := 0,
        inter_val := 0, attack := 100, decay := 200, sustain := 1 / 2 } (p0 + 8820)) =
      { held := false, velocity := 1, attack_t := p0, release_t := p0 + 8820, init_val := 0,
        inter_val := 3 / 4, attack := 100, decay := 200, sustain := 1 / 2 } := by
    simp only [Env.start_release, h3]
  rw [hrel]
  have hr : ∀ k : Nat, k < 2 ^ 64 → Env.get_value
      { held := false, velocity := 1, attack_t := p0, release_t := p0 + 8820, init_val := 0,
        inter_val := 3 / 4, attack := 100, decay := 200, sustain := 1 / 2 } (p0 + 8820 + k) =
      if (k : ℚ) * (1000 / 44100) < 200 then (1 - (k : ℚ) * (1000 / 44100) / 200) * (3 / 4)
      else 0 := fun k hk =>
    Env.get_value_released_add
      { held := false, velocity := 1, attack_t := p0, release_t := p0 + 8820, init_val := 0,
        inter_val := 3 / 4, attack := 100, decay := 200, sustain := 1 / 2 } k hk rfl
  refine ⟨h1, h2, h3, ?_, ?_, ?_, ?_⟩
  · have := hr 0 (by norm_num)
    simpa using this
  · intro k hk
    have hk2 : k < 2 ^ 64 := lt_of_le_of_lt hk (by norm_num)
    rw [hr k hk2]
    have hkq : (k : ℚ) ≤ 8820 := by exact_mod_cast hk
    split_ifs with hlt
    · ring
    · have : (k : ℚ) = 8820 := by
        have : (200 : ℚ) ≤ (k : ℚ) * (1000 / 44100) := not_lt.mp hlt
        linarith
      rw [this]; norm_num
  · have := hr 8820 (by norm_num)
    rw [this]; norm_num
  · intro k hk hk2
    rw [hr k hk2]
    have hkq : (8820 : ℚ) ≤ (k : ℚ) := by exact_mod_cast hk
    have : ¬ ((k : ℚ) * (1000 / 44100) < 200) := by
      rw [not_lt]; linarith
    simp [this]

/-- Witness for C3: the linear fall and the silence after the release, read at
`p0 = 1000`, half-way through the release and one second after it. -/
theorem Env.worked_example_witness :
    (((Env.example_silent 0 0 0).start_attack 1000 1).start_release (1000 + 8820)).get_value
        (1000 + 8820 + 4410) = 3 / 4 - (3 / 4 / 8820) * ((4410 : Nat) : ℚ) ∧
    (((Env.example_silent 0 0 0).start_attack 1000 1).start_release (1000 + 8820)).get_value
        (1000 + 8820 + 44100) = 0 :=
  ⟨(Env.worked_example 0 0 0 1000).2.2.2.2.1 4410 (by decide),
   (Env.worked_example 0 0 0 1000).2.2.2.2.2.2 44100 (by decide) (by norm_num)⟩

/-! ### Slot choice -/

/-- The search loop of `choose_voice`, unrolled over the four slots. -/
theorem FMASynthStream.first_slot_eq (s : FMASynthStream) (v : Int) :
    s.first_slot v =
      if s.poly 0 = v then some 0 else if s.poly 1 = v then some 1
      else if s.poly 2 = v then some 2 else if s.poly 3 = v then some 3 else none := by
  have e2 : ∀ h : 2 < POLYPHONY, (⟨2, h⟩ : Fin POLYPHONY) = 2 := fun _ => rfl
  have e3 : ∀ h : 3 < POLYPHONY, (⟨3, h⟩ : Fin POLYPHONY) = 3 := fun _ => rfl
  simp only [FMASynthStream.first_slot, List.finRange, List.find?, List.pmap, List.range,
    List.range.loop, e2, e3]
  by_cases h0 : s.poly 0 = v <;> by_cases h1 : s.poly 1 = v <;> by_cases h2 : s.poly 2 = v <;>
    by_cases h3 : s.poly 3 = v <;> simp [h0, h1, h2, h3]

/-- The search loop returns slot `i` exactly when `i` is the lowest slot whose
entry is `v`. -/
theorem FMASynthStream.first_slot_eq_some_iff (s : FMASynthStream) (v : Int)
    (i : Fin POLYPHONY) :
    s.first_slot v = some i ↔ s.poly i = v ∧ ∀ j, s.poly j = v → i ≤ j := by
  have e : (Fin.succ 2 : Fin 4) = 3 := rfl
  rw [FMASynthStream.first_slot_eq]
  revert i
  by_cases h0 : s.poly 0 = v <;> by_cases h1 : s.poly 1 = v <;> by_cases h2 : s.poly 2 = v <;>
    by_cases h3 : s.poly 3 = v <;>
    simp [h0, h1, h2, h3, Fin.forall_fin_succ, e]

/-- The search loop fails exactly when no slot has entry `v`. -/
theorem FMASynthStream.first_slot_eq_none_iff (s : FMASynthStream) (v : Int) :
    s.first_slot v = none ↔ ∀ j, s.poly j ≠ v := by
  have e : (Fin.succ 2 : Fin 4) = 3 := rfl
  rw [FMASynthStream.first_slot_eq]
  by_cases h0 : s.poly 0 = v <;> by_cases h1 : s.poly 1 = v <;> by_cases h2 : s.poly 2 = v <;>
    by_cases h3 : s.poly 3 = v <;>
    simp [h0, h1, h2, h3, Fin.forall_fin_succ, e]


/-- If `i` is the lowest slot holding `note`, `choose_voice` returns `i`. -/
theorem FMASynthStream.choose_voice_of_first (s : FMASynthStream) (note : Int)
    (i : Fin POLYPHONY) (hi : s.poly i = note) (hmin : ∀ j, s.poly j = note → i ≤ j) :
    s.choose_voice note = i := by
  have h := (s.first_slot_eq_some_iff note i).mpr ⟨hi, hmin⟩
  simp [FMASynthStream.choose_voice, h]

/-- If no slot holds `note` and `i` is the lowest free slot, `choose_voice`
returns `i`. -/
theorem FMASynthStream.choose_voice_of_first_free (s : FMASynthStream) (note : Int)
    (i : Fin POLYPHONY) (hn : ∀ j, s.poly j ≠ note) (hi : s.poly i = -1)
    (hmin : ∀ j, s.poly j = -1 → i ≤ j) :
    s.choose_voice note = i := by
  have h1 := (s.first_slot_eq_none_iff note).mpr hn
  have h2 := (s.first_slot_eq_some_iff (-1) i).mpr ⟨hi, hmin⟩
  simp [FMASynthStream.choose_voice, h1, h2]

/-- If no slot holds `note` and no slot is free, `choose_voice` returns slot `0`. -/
theorem FMASynthStream.choose_voice_of_full (s : FMASynthStream) (note : Int)
    (hn : ∀ j, s.poly j ≠ note) (hf : ∀ j, s.poly j ≠ -1) :
    s.choose_voice note = 0 := by
  have h1 := (s.first_slot_eq_none_iff note).mpr hn
  have h2 := (s.first_slot_eq_none_iff (-1)).mpr hf
  simp [FMASynthStream.choose_voice, h1, h2]

/-- When some slot holds `note`, `choose_voice` returns the lowest such slot. -/
theorem FMASynthStream.choose_voice_holder (s : FMASynthStream) (note : Int)
    (h : ∃ i, s.poly i = note) :
    s.poly (s.choose_voice note) = note ∧ ∀ j, s.poly j = note → s.choose_voice note ≤ j := by
  cases hf : s.first_slot note with
  | none =>
    obtain ⟨i, hi⟩ := h
    exact absurd hi ((s.first_slot_eq_none_iff note).mp hf i)
  | some i =>
    have hcv : s.choose_voice note = i := by simp [FMASynthStream.choose_voice, hf]
    rw [hcv]
    exact (s.first_slot_eq_some_iff note i).mp hf

/-- When no slot holds `note` and some slot is free, `choose_voice` returns the
lowest free slot. -/
theorem FMASynthStream.choose_voice_free (s : FMASynthStream) (note : Int)
    (hn : ∀ j, s.poly j ≠ note) (h : ∃ i, s.poly i = -1) :
    s.poly (s.choose_voice note) = -1 ∧ ∀ j, s.poly j = -1 → s.choose_voice note ≤ j := by
  have h1 := (s.first_slot_eq_none_iff note).mpr hn
  cases hf : s.first_slot (-1) with
  | none =>
    obtain ⟨i, hi⟩ := h
    exact absurd hi ((s.first_slot_eq_none_iff (-1)).mp hf i)
  | some i =>
    have hcv : s.choose_voice note = i := by simp [FMASynthStream.choose_voice, h1, hf]
    rw [hcv]
    exact (s.first_slot_eq_some_iff (-1) i).mp hf

/-- The slot map after a `note_on` with non-zero velocity. -/
theorem FMASynthStream.note_on_poly (E : Ext) (s : FMASynthStream) (note : Int) (vel : ℚ)
    (hv : vel ≠ 0) :
    (s.note_on E note vel).poly = Function.update s.poly (s.choose_voice note) note := by
  simp [FMASynthStream.note_on, hv]

/-- The slot map after a `note_off`. -/
theorem FMASynthStream.note_off_poly (s : FMASynthStream) (note : Int) :
    (s.note_off note).poly = Function.update s.poly (s.choose_voice note) (-1) := by
  simp [FMASynthStream.note_off]

/-- A `note_on` with non-zero velocity does not change the slot chosen for its note. -/
theorem FMASynthStream.choose_voice_note_on (E : Ext) (s : FMASynthStream) (note : Int)
    (vel : ℚ) (hv : vel ≠ 0) :
    (s.note_on E note vel).choose_voice note = s.choose_voice note := by
  apply FMASynthStream.choose_voice_of_first
  · simp [FMASynthStream.note_on_poly E s note vel hv]
  · intro j hj
    by_cases hji : j = s.choose_voice note
    · exact le_of_eq hji.symm
    · rw [FMASynthStream.note_on_poly E s note vel hv, Function.update_noteq hji] at hj
      exact (s.choose_voice_holder note ⟨j, hj⟩).2 j hj

/-- A `note_on` with non-zero velocity for a note that no slot holds, on a pool
whose lowest free slot is `i`, stores the note in slot `i`. -/
theorem FMASynthStream.note_on_poly_of_first_free (E : Ext) (s : FMASynthStream) (note : Int)
    (vel : ℚ) (hv : vel ≠ 0) (i : Fin POLYPHONY) (hn : ∀ j, s.poly j ≠ note)
    (hi : s.poly i = -1) (hmin : ∀ j, s.poly j = -1 → i ≤ j) :
    (s.note_on E note vel).poly = Function.update s.poly i note := by
  rw [FMASynthStream.note_on_poly E s note vel hv,
    FMASynthStream.choose_voice_of_first_free s note i hn hi hmin]

/-- Four `note_on` calls for distinct notes other than `-1`, on a pool whose
slots are all free, fill the slots in order. -/
theorem FMASynthStream.note_on_fill (E : Ext) (s : FMASynthStream) (n0 n1 n2 n3 : Int)
    (v0 v1 v2 v3 : ℚ) (hfree : ∀ i, s.poly i = -1)
    (hd : [n0, n1, n2, n3].Nodup) (hm : (-1 : Int) ∉ [n0, n1, n2, n3])
    (h0 : v0 ≠ 0) (h1 : v1 ≠ 0) (h2 : v2 ≠ 0) (h3 : v3 ≠ 0) (i : Fin POLYPHONY) :
    ((((s.note_on E n0 v0).note_on E n1 v1).note_on E n2 v2).note_on E n3 v3).poly i =
      [n0, n1, n2, n3].getD i.val 0 := by
  have e : (Fin.succ 2 : Fin 4) = 3 := rfl
  simp only [List.nodup_cons, List.mem_cons, List.not_mem_nil, or_false, not_or,
    List.nodup_nil, and_true, not_false_eq_true] at hd hm
  obtain ⟨⟨d01, d02, d03⟩, ⟨d12, d13⟩, d23⟩ := hd
  obtain ⟨m0, m1, m2, m3⟩ := hm
  have p1 : (s.note_on E n0 v0).poly = Function.update s.poly 0 n0 := by
    apply FMASynthStream.note_on_poly_of_first_free E s n0 v0 h0 0
    · intro j; rw [hfree j]; exact m0
    · exact hfree 0
    · intro j _; exact Fin.zero_le j
  have p2 : ((s.note_on E n0 v0).note_on E n1 v1).poly =
      Function.update (Function.update s.poly 0 n0) 1 n1 := by
    rw [← p1]
    apply FMASynthStream.note_on_poly_of_first_free E _ n1 v1 h1 1 <;> rw [p1] <;>
      simp [Fin.forall_fin_succ, e, Function.update_apply, hfree, d01, m0, m1, Ne.symm m0]
  have p3 : (((s.note_on E n0 v0).note_on E n1 v1).note_on E n2 v2).poly =
      Function.update (Function.update (Function.update s.poly 0 n0) 1 n1) 2 n2 := by
    rw [← p2]
    apply FMASynthStream.note_on_poly_of_first_free E _ n2 v2 h2 2 <;> rw [p2] <;>
      simp [Fin.forall_fin_succ, e, Function.update_apply, hfree, d02, d12, m0, m1, m2,
        Ne.symm m0, Ne.symm m1]
  have p4 : ((((s.note_on E n0 v0).note_on E n1 v1).note_on E n2 v2).note_on E n3 v3).poly =
      Function.update (Function.update (Function.update (Function.update s.poly 0 n0) 1 n1)
        2 n2) 3 n3 := by
    rw [← p3]
    apply FMASynthStream.note_on_poly_of_first_free E _ n3 v3 h3 3 <;> rw [p3] <;>
      simp [Fin.forall_fin_succ, e, Function.update_apply, hfree, d03, d13, d23, m0, m1, m2, m3,
        Ne.symm m0, Ne.symm m1, Ne.symm m2]
  rw [p4]
  revert i
  simp [Fin.forall_fin_succ, e, Function.update_apply]

/-- C4 (as amended): slot choice. A fresh and a reset engine have all slots
free. In every state, (a) a `note_on` with non-zero velocity leaves the slot
chosen for its note unchanged, so that two consecutive `note_on(60, 1.0)` use
the same slot, and `choose_voice note` is the lowest slot holding `note` when
one exists; (b) otherwise it is the lowest free slot when one exists;
(c) starting with all slots free, after `note_on` with non-zero velocity for
four distinct notes none of which is `-1`, a `note_on` with non-zero velocity
for a further distinct note is assigned slot `0` and overwrites `poly[0]`,
leaving the other entries as they were. -/
theorem FMASynthStream.slot_choice (E : Ext) (s : FMASynthStream) :
    (∀ (seed : Nat → Nat) (i : Fin POLYPHONY), (FMASynthStream.new seed).poly i = -1) ∧
    (∀ i : Fin POLYPHONY, s.reset.poly i = -1) ∧
    (∀ (note : Int) (vel : ℚ), vel ≠ 0 →
      (s.note_on E note vel).choose_voice note = s.choose_voice note) ∧
    (∀ note : Int, (∃ i, s.poly i = note) →
      s.poly (s.choose_voice note) = note ∧ ∀ j, s.poly j = note → s.choose_voice note ≤ j) ∧
    (∀ note : Int, (∀ j, s.poly j ≠ note) → (∃ i, s.poly i = -1) →
      s.poly (s.choose_voice note) = -1 ∧ ∀ j, s.poly j = -1 → s.choose_voice note ≤ j) ∧
    (∀ (n0 n1 n2 n3 n4 : Int) (v0 v1 v2 v3 v4 : ℚ), (∀ i, s.poly i = -1) →
      [n0, n1, n2, n3, n4].Nodup → (-1 : Int) ∉ [n0, n1, n2, n3] →
      v0 ≠ 0 → v1 ≠ 0 → v2 ≠ 0 → v3 ≠ 0 → v4 ≠ 0 →
      ((((s.note_on E n0 v0).note_on E n1 v1).note_on E n2 v2).note_on E n3 v3).choose_voice n4
        = 0 ∧
      (((((s.note_on E n0 v0).note_on E n1 v1).note_on E n2 v2).note_on E n3 v3).note_on E
        n4 v4).poly 0 = n4 ∧
      ∀ i : Fin POLYPHONY, i ≠ 0 →
        (((((s.note_on E n0 v0).note_on E n1 v1).note_on E n2 v2).note_on E n3 v3).note_on E
          n4 v4).poly i =
        ((((s.note_on E n0 v0).note_on E n1 v1).note_on E n2 v2).note_on E n3 v3).poly i) := by
  refine ⟨fun _ _ => rfl, fun _ => rfl, fun note vel hv => s.choose_voice_note_on E note vel hv,
    fun note h => s.choose_voice_holder note h, fun note hn h => s.choose_voice_free note hn h,
    ?_⟩
  intro n0 n1 n2 n3 n4 v0 v1 v2 v3 v4 hfree hd hm h0 h1 h2 h3 h4
  have hd4 : [n0, n1, n2, n3].Nodup := by
    simp only [List.nodup_cons, List.mem_cons, List.not_mem_nil, or_false, not_or,
      List.nodup_nil, and_true, not_false_eq_true] at hd ⊢
    tauto
  have hfill := FMASynthStream.note_on_fill E s n0 n1 n2 n3 v0 v1 v2 v3 hfree hd4 hm h0 h1 h2 h3
  have e : (Fin.succ 2 : Fin 4) = 3 := rfl
  simp only [List.nodup_cons, List.mem_cons, List.not_mem_nil, or_false, not_or,
    List.nodup_nil, and_true, not_false_eq_true] at hd hm
  obtain ⟨⟨d04, d14, d24, d34⟩ , -⟩ : (n0 ≠ n4 ∧ n1 ≠ n4 ∧ n2 ≠ n4 ∧ n3 ≠ n4) ∧ True := by
    refine ⟨⟨?_, ?_, ?_, ?_⟩, trivial⟩ <;> tauto
  obtain ⟨m0, m1, m2, m3⟩ := hm
  have hcv : ((((s.note_on E n0 v0).note_on E n1 v1).note_on E n2 v2).note_on E n3
      v3).choose_voice n4 = 0 := by
    apply FMASynthStream.choose_voice_of_full
    · intro j; rw [hfill j]; revert j
      simp [Fin.forall_fin_succ, e, d04, d14, d24, d34]
    · intro j; rw [hfill j]; revert j
      simp [Fin.forall_fin_succ, e, Ne.symm m0, Ne.symm m1, Ne.symm m2, Ne.symm m3]
  refine ⟨hcv, ?_, ?_⟩
  · rw [FMASynthStream.note_on_poly E _ n4 v4 h4, hcv]; simp
  · intro i hi
    rw [FMASynthStream.note_on_poly E _ n4 v4 h4, hcv, Function.update_noteq hi]

/-- Witness for C4 (as amended): on a fresh engine two `note_on(60, 1.0)` calls
use the same slot, and after notes `60, 61, 62, 63` the note `64` is given
slot `0` and overwrites `poly[0]`. -/
theorem FMASynthStream.slot_choice_witness :
    ((FMASynthStream.new (fun _ => 0)).note_on Ext.sample 60 1).choose_voice 60 =
      (FMASynthStream.new (fun _ => 0)).choose_voice 60 ∧
    (((((FMASynthStream.new (fun _ => 0)).note_on Ext.sample 60 1).note_on Ext.sample 61 1).note_on
      Ext.sample 62 1).note_on Ext.sample 63 1).choose_voice 64 = 0 ∧
    ((((((FMASynthStream.new (fun _ => 0)).note_on Ext.sample 60 1).note_on Ext.sample 61 1).note_on
      Ext.sample 62 1).note_on Ext.sample 63 1).note_on Ext.sample 64 1).poly 0 = 64 :=
  ⟨(FMASynthStream.slot_choice Ext.sample (FMASynthStream.new (fun _ => 0))).2.2.1 60 1
      (by norm_num),
   ((FMASynthStream.slot_choice Ext.sample (FMASynthStream.new (fun _ => 0))).2.2.2.2.2
      60 61 62 63 64 1 1 1 1 1 (fun _ => rfl) (by decide) (by decide) (by norm_num)
      (by norm_num) (by norm_num) (by norm_num) (by norm_num)).1,
   ((FMASynthStream.slot_choice Ext.sample (FMASynthStream.new (fun _ => 0))).2.2.2.2.2
      60 61 62 63 64 1 1 1 1 1 (fun _ => rfl) (by decide) (by decide) (by norm_num)
      (by norm_num) (by norm_num) (by norm_num) (by norm_num)).2.1⟩

/-- C4 (counterexample): on a fresh engine, after `note_on` with velocity `1`
for the four distinct notes `-1, 60, 61, 62`, slot `3` is still free; the
further note `63` is assigned slot `3`, not slot `0`, and `poly[0]` keeps `60`. -/
theorem FMASynthStream.slot_choice_fails_with_free_marker :
    (((((FMASynthStream.new (fun _ => 0)).note_on Ext.sample (-1) 1).note_on Ext.sample 60 1).note_on
      Ext.sample 61 1).note_on Ext.sample 62 1).choose_voice 63 = 3 ∧
    ((((((FMASynthStream.new (fun _ => 0)).note_on Ext.sample (-1) 1).note_on Ext.sample 60 1).note_on
      Ext.sample 61 1).note_on Ext.sample 62 1).note_on Ext.sample 63 1).poly 0 = 60 := by
  decide

/-! ### note_off -/

/-- C5 (as amended): when slot `i` is the lowest-indexed slot with
`poly[i] == note`, `note_off note` puts slot `i`'s envelope into release
(`held = false`, `release_t` the slot's current position, `inter_val` the
envelope value there), changes nothing else in slot `i`, sets `poly[i]` to `-1`,
and leaves the note and the whole sound state of every other slot unchanged. -/
theorem FMASynthStream.note_off_releases_first_holder (s : FMASynthStream) (note : Int)
    (i : Fin POLYPHONY) (hi : s.poly i = note) (hmin : ∀ j, s.poly j = note → i ≤ j) :
    (s.note_off note).voices i =
      { s.voices i with voice := { (s.voices i).voice with
          env := (s.voices i).voice.env.start_release (s.voices i).pos } } ∧
    ((s.note_off note).voices i).voice.env.held = false ∧
    ((s.note_off note).voices i).voice.env.release_t = (s.voices i).pos ∧
    ((s.note_off note).voices i).voice.env.inter_val =
      (s.voices i).voice.env.get_value (s.voices i).pos ∧
    (s.note_off note).poly i = -1 ∧
    (∀ j, j ≠ i → (s.note_off note).poly j = s.poly j ∧
      (s.note_off note).voices j = s.voices j) := by
  have hcv : s.choose_voice note = i := s.choose_voice_of_first note i hi hmin
  have hv : (s.note_off note).voices i = (s.voices i).note_off := by
    simp [FMASynthStream.note_off, hcv]
  refine ⟨?_, ?_, ?_, ?_, ?_, ?_⟩
  · rw [hv]; rfl
  · rw [hv]; rfl
  · rw [hv]; rfl
  · rw [hv]; rfl
  · rw [FMASynthStream.note_off_poly, hcv]; simp
  · intro j hj
    simp [FMASynthStream.note_off, hcv, Function.update_noteq hj]

/-- Witness for C5 (as amended): on a fresh engine playing note `60` in slot `0`,
`note_off 60` releases slot `0`, frees it and leaves slot `1` alone. -/
theorem FMASynthStream.note_off_releases_first_holder_witness :
    ((((FMASynthStream.new (fun _ => 0)).note_on Ext.sample 60 1).note_off 60).voices
      0).voice.env.held = false ∧
    (((FMASynthStream.new (fun _ => 0)).note_on Ext.sample 60 1).note_off 60).poly 0 = -1 ∧
    (((FMASynthStream.new (fun _ => 0)).note_on Ext.sample 60 1).note_off 60).voices 1 =
      ((FMASynthStream.new (fun _ => 0)).note_on Ext.sample 60 1).voices 1 :=
  ⟨(FMASynthStream.note_off_releases_first_holder
      ((FMASynthStream.new (fun _ => 0)).note_on Ext.sample 60 1) 60 0 (by decide)
      (fun j _ => Fin.zero_le j)).2.1,
   (FMASynthStream.note_off_releases_first_holder
      ((FMASynthStream.new (fun _ => 0)).note_on Ext.sample 60 1) 60 0 (by decide)
      (fun j _ => Fin.zero_le j)).2.2.2.2.1,
   ((FMASynthStream.note_off_releases_first_holder
      ((FMASynthStream.new (fun _ => 0)).note_on Ext.sample 60 1) 60 0 (by decide)
      (fun j _ => Fin.zero_le j)).2.2.2.2.2 1 (by decide)).2⟩

/-- C5 (counterexample): on a fresh engine that has rendered one sample, slot `2`
has `poly[2] == -1` and position `1`. After `note_off(-1)` the envelope of slot
`2` is still anchored at release position `0`, not at its current position `1`,
while the envelope of slot `0`, another slot, has been re-released at
position `1`. -/
theorem FMASynthStream.note_off_misses_later_holder :
    ((FMASynthStream.new (fun _ => 0)).gen_sound Ext.sample [0] 1).2.poly 2 = -1 ∧
    (((FMASynthStream.new (fun _ => 0)).gen_sound Ext.sample [0] 1).2.voices 2).pos = 1 ∧
    ((((FMASynthStream.new (fun _ => 0)).gen_sound Ext.sample [0] 1).2.note_off (-1)).voices
      2).voice.env.release_t = 0 ∧
    (((FMASynthStream.new (fun _ => 0)).gen_sound Ext.sample [0] 1).2.voices
      0).voice.env.release_t = 0 ∧
    ((((FMASynthStream.new (fun _ => 0)).gen_sound Ext.sample [0] 1).2.note_off (-1)).voices
      0).voice.env.release_t = 1 := by
  decide!

/-! ### reset -/

/-- For a non-negative argument `fmod x 1` lies in `[0, 1)`. -/
theorem fmod_one_of_nonneg (x : ℚ) (h : 0 ≤ x) : 0 ≤ fmod x 1 ∧ fmod x 1 < 1 := by
  have e : fmod x 1 = Int.fract x := by
    unfold fmod truncToInt
    rw [div_one, if_pos h, one_mul]
    rfl
  rw [e]
  exact ⟨Int.fract_nonneg x, Int.fract_lt_one x⟩

/-- One `gen_sample` call at a non-negative frequency keeps the phase in `[0, 1)`. -/
theorem Osc.gen_sample_phase (E : Ext) (o : Osc) (hz : ℚ) (h0 : 0 ≤ o.phase) (hhz : 0 ≤ hz) :
    0 ≤ (o.gen_sample E hz).2.phase ∧ (o.gen_sample E hz).2.phase < 1 := by
  have hinc : 0 ≤ o.phase + hz / MIX_RATE := by
    have : (0 : ℚ) ≤ hz / MIX_RATE := div_nonneg hhz (by norm_num [MIX_RATE])
    linarith
  simpa [Osc.gen_sample] using fmod_one_of_nonneg _ hinc

/-- A sequence of `gen_sample` calls at non-negative frequencies keeps the phase
in `[0, 1)`. -/
theorem Osc.gen_samples_phase (E : Ext) (hzs : List ℚ) :
    ∀ o : Osc, 0 ≤ o.phase → o.phase < 1 → (∀ hz ∈ hzs, 0 ≤ hz) →
      0 ≤ (o.gen_samples E hzs).phase ∧ (o.gen_samples E hzs).phase < 1 := by
  induction hzs with
  | nil => intro o h0 h1 _; exact ⟨h0, h1⟩
  | cons hz hzs ih =>
    intro o h0 _ hall
    have hstep := Osc.gen_sample_phase E o hz h0 (hall hz (List.mem_cons_self hz hzs))
    exact ih _ hstep.1 hstep.2 (fun x hx => hall x (List.mem_cons_of_mem hz hx))

/-- C7: oscillator phase range. For every waveform (any `wave_type`), every
starting phase in `[0, 1)` and every finite sequence of `gen_sample` calls with
positive frequencies, the phase after each call (after the first `n` calls, for
every `n`) lies in `[0, 1)`. -/
theorem Osc.phase_range (E : Ext) (o : Osc) (hzs : List ℚ) (h0 : 0 ≤ o.phase)
    (h1 : o.phase < 1) (hpos : ∀ hz ∈ hzs, 0 < hz) (n : Nat) :
    0 ≤ (o.gen_samples E (hzs.take n)).phase ∧ (o.gen_samples E (hzs.take n)).phase < 1 :=
  Osc.gen_samples_phase E (hzs.take n) o h0 h1
    (fun hz hmem => le_of_lt (hpos hz (List.mem_of_mem_take hmem)))

/-- Witness for C7: a square-wave oscillator at phase `0.9` driven twice at
`4410 Hz` and `22050 Hz`. -/
theorem Osc.phase_range_witness :
    0 ≤ ((Osc.mk (9 / 10) 0 1).gen_samples Ext.sample ([4410, 22050].take 2)).phase ∧
    ((Osc.mk (9 / 10) 0 1).gen_samples Ext.sample ([4410, 22050].take 2)).phase < 1 :=
  Osc.phase_range Ext.sample (Osc.mk (9 / 10) 0 1) [4410, 22050] (by norm_num) (by norm_num)
    (by simp) 2

/-! ### Partial volume -/

/-- C8: partial-volume end points, with `PARTIALS = 5`. When the partial-amount
glide evaluates to `0` at the sound's position, `get_partial_vol p = 0` for
`p = 1..4`; when it evaluates to `1`, `get_partial_vol p = 0.7` for `p = 1..4`;
and `get_partial_vol 0 = 1` whatever the amount. -/
theorem FMASound.get_partial_vol_end_points (s : FMASound) :
    (s.partials_glide.get_value s.pos = 0 →
      ∀ p : Int, 1 ≤ p → p ≤ 4 → s.get_partial_vol p = 0) ∧
    (s.partials_glide.get_value s.pos = 1 →
      ∀ p : Int, 1 ≤ p → p ≤ 4 → s.get_partial_vol p = 7 / 10) ∧
    s.get_partial_vol 0 = 1 := by
  refine ⟨?_, ?_, ?_⟩
  · intro h p hp1 hp4
    interval_cases p <;> norm_num [FMASound.get_partial_vol, h]
  · intro h p hp1 hp4
    interval_cases p <;> norm_num [FMASound.get_partial_vol, h]
  · simp [FMASound.get_partial_vol]

/-- Witness for C8: a fresh sound (amount `0`) and a sound whose amount glide
rests at `1`. -/
theorem FMASound.get_partial_vol_end_points_witness :
    (FMASound.new (fun _ => 0)).get_partial_vol 3 = 0 ∧
    ({ FMASound.new (fun _ => 0) with partials_glide := Glide.mk 0 1 1 10 } :
      FMASound).get_partial_vol 3 = 7 / 10 :=
  ⟨(FMASound.get_partial_vol_end_points (FMASound.new (fun _ => 0))).1 (by decide!) 3
      (by decide) (by decide),
   (FMASound.get_partial_vol_end_points
      { FMASound.new (fun _ => 0) with partials_glide := Glide.mk 0 1 1 10 }).2.1 (by decide!) 3
      (by decide) (by decide)⟩

/-! ### set_position -/

/-- Rendering one slot commutes with `set_position`. -/
theorem FMASynthStream.gen_slot_set_position (E : Ext) (size : Int)
    (acc : List Int × FMASynthStream) (p : Nat) (i : Fin POLYPHONY) :
    FMASynthStream.gen_slot E size (acc.1, acc.2.set_position p) i =
      ((FMASynthStream.gen_slot E size acc i).1,
       (FMASynthStream.gen_slot E size acc i).2.set_position p) := rfl

/-- Rendering a list of slots commutes with `set_position`. -/
theorem FMASynthStream.foldl_gen_slot_set_position (E : Ext) (size : Int) (p : Nat)
    (l : List (Fin POLYPHONY)) :
    ∀ acc : List Int × FMASynthStream,
      l.foldl (FMASynthStream.gen_slot E size) (acc.1, acc.2.set_position p) =
        ((l.foldl (FMASynthStream.gen_slot E size) acc).1,
         (l.foldl (FMASynthStream.gen_slot E size) acc).2.set_position p) := by
  induction l with
  | nil => intro acc; rfl
  | cons a l ih =>
    intro acc
    rw [List.foldl_cons, List.foldl_cons, FMASynthStream.gen_slot_set_position, ih]

/-- C9 (as amended): `set_position p` stores `p` in the engine's own `pos` field
and changes nothing else; in particular every slot's `FMASound::pos`, the
position that `note_on`, `note_off`, `set_param` and `gen_sound` use, keeps its
value. Accordingly `note_on`, `note_off` and `set_param` commute with
`set_position`, and `gen_sound` writes the same buffer and leaves the same
slots whether or not `set_position` was called before it. -/
theorem FMASynthStream.set_position_spec (E : Ext) (s : FMASynthStream) (p : Nat) :
    (s.set_position p).pos = p ∧
    (s.set_position p).voices = s.voices ∧
    (s.set_position p).poly = s.poly ∧
    (s.set_position p).mix_rate = s.mix_rate ∧
    (∀ i, ((s.set_position p).voices i).pos = (s.voices i).pos) ∧
    (∀ (note : Int) (vel : ℚ),
      (s.set_position p).note_on E note vel = (s.note_on E note vel).set_position p) ∧
    (∀ note : Int, (s.set_position p).note_off note = (s.note_off note).set_position p) ∧
    (∀ (param : Int) (value : ℚ),
      (s.set_position p).set_param param value = (s.set_param param value).set_position p) ∧
    (∀ (pcm_buf : List Int) (size : Int),
      ((s.set_position p).gen_sound E pcm_buf size).1 = (s.gen_sound E pcm_buf size).1 ∧
      ((s.set_position p).gen_sound E pcm_buf size).2.voices =
        (s.gen_sound E pcm_buf size).2.voices) := by
  refine ⟨rfl, rfl, rfl, rfl, fun _ => rfl, ?_, fun _ => rfl, fun _ _ => rfl, ?_⟩
  · intro note vel
    unfold FMASynthStream.note_on
    split_ifs <;> rfl
  · intro pcm_buf size
    have h := FMASynthStream.foldl_gen_slot_set_position E size p (List.finRange POLYPHONY)
      (pcm_buf, s)
    simp only [FMASynthStream.gen_sound]
    rw [h]
    exact ⟨rfl, rfl⟩

/-- C9 (counterexample): after `set_position 5` on a fresh engine the position
counter of slot `0` is still `0`, and a following `note_on(60, 1.0)` anchors the
attack of slot `0` at position `0`, not `5`. -/
theorem FMASynthStream.set_position_does_not_seek_sounds :
    ((FMASynthStream.new (fun _ => 0)).set_position 5).pos = 5 ∧
    (((FMASynthStream.new (fun _ => 0)).set_position 5).voices 0).pos = 0 ∧
    ((((FMASynthStream.new (fun _ => 0)).set_position 5).note_on Ext.sample 60 1).voices
      0).voice.env.attack_t = 0 := by
  decide

/-! ### Empty render -/

/-- Rendering zero samples leaves a sound and the buffer unchanged. -/
theorem FMASound.gen_sound_size_zero (E : Ext) (s : FMASound) (pcm_buf : List Int) :
    s.gen_sound E pcm_buf 0 = (pcm_buf, s) := rfl

/-- One slot of an empty render leaves the buffer and the engine unchanged. -/
theorem FMASynthStream.gen_slot_zero (E : Ext) (acc : List Int × FMASynthStream)
    (i : Fin POLYPHONY) : FMASynthStream.gen_slot E 0 acc i = acc := by
  simp [FMASynthStream.gen_slot, FMASound.gen_sound_size_zero]

/-- C10: an empty render is a no-op. `gen_sound pcm_buf 0` returns the buffer
unchanged and the engine unchanged: the engine position (a `uint64_t`, so below
`2^64`), every slot with its position counter and every oscillator phase. -/
theorem FMASynthStream.gen_sound_zero (E : Ext) (s : FMASynthStream) (pcm_buf : List Int)
    (hpos : s.pos < 2 ^ 64) :
    s.gen_sound E pcm_buf 0 = (pcm_buf, s) ∧
    (s.gen_sound E pcm_buf 0).2.pos = s.pos ∧
    (∀ i, ((s.gen_sound E pcm_buf 0).2.voices i).pos = (s.voices i).pos) ∧
    (∀ i, ((s.gen_sound E pcm_buf 0).2.voices i).mod.phase = (s.voices i).mod.phase) ∧
    (∀ i k, (((s.gen_sound E pcm_buf 0).2.voices i).oscs k).phase = ((s.voices i).oscs k).phase) ∧
    (∀ i, ((s.gen_sound E pcm_buf 0).2.voices i).voice.vibrato.osc.phase =
      (s.voices i).voice.vibrato.osc.phase) ∧
    (∀ i k, (((s.gen_sound E pcm_buf 0).2.voices i).partials_lfos k).osc.phase =
      ((s.voices i).partials_lfos k).osc.phase) := by
  have hfold : ∀ (l : List (Fin POLYPHONY)) (acc : List Int × FMASynthStream),
      l.foldl (FMASynthStream.gen_slot E 0) acc = acc := by
    intro l
    induction l with
    | nil => intro acc; rfl
    | cons a l ih => intro acc; rw [List.foldl_cons, FMASynthStream.gen_slot_zero, ih]
  have hp : u64addInt s.pos 0 = s.pos := by
    unfold u64addInt U64
    omega
  have h : s.gen_sound E pcm_buf 0 = (pcm_buf, s) := by
    simp [FMASynthStream.gen_sound, hfold, hp]
  rw [h]
  exact ⟨rfl, rfl, fun _ => rfl, fun _ => rfl, fun _ _ => rfl, fun _ => rfl, fun _ _ => rfl⟩

/-- Witness for C10: an empty render on a fresh engine with one note playing. -/
theorem FMASynthStream.gen_sound_zero_witness :
    ((FMASynthStream.new (fun _ => 0)).note_on Ext.sample 60 1).gen_sound Ext.sample [7, 8] 0 =
      ([7, 8], (FMASynthStream.new (fun _ => 0)).note_on Ext.sample 60 1) :=
  (FMASynthStream.gen_sound_zero Ext.sample
    ((FMASynthStream.new (fun _ => 0)).note_on Ext.sample 60 1) [7, 8] (by decide)).1

/-! ### Peak envelope -/

/-- The loop of `get_env`, unrolled over the four slots: the running maximum
starts at `0`. -/
theorem FMASynthStream.get_env_eq_max (s : FMASynthStream) :
    s.get_env =
      max (max (max (max 0 ((s.voices 0).voice.env.get_value (s.voices 0).pos))
        ((s.voices 1).voice.env.get_value (s.voices 1).pos))
        ((s.voices 2).voice.env.get_value (s.voices 2).pos))
        ((s.voices 3).voice.env.get_value (s.voices 3).pos) := by
  have hstep : ∀ ret e : ℚ, (if e > ret then e else ret) = max ret e := by
    intro ret e
    rw [max_def]
    split_ifs <;> first | rfl | linarith
  have e2 : ∀ h : 2 < POLYPHONY, (⟨2, h⟩ : Fin POLYPHONY) = 2 := fun _ => rfl
  have e3 : ∀ h : 3 < POLYPHONY, (⟨3, h⟩ : Fin POLYPHONY) = 3 := fun _ => rfl
  simp only [FMASynthStream.get_env, List.finRange, List.pmap, List.range, List.range.loop,
    List.foldl, hstep, e2, e3]
  rfl

/-- C11 (as amended): `get_env` returns the maximum of `0` and the four slots'
envelope values at their current positions: it bounds every slot's value, it is
non-negative, and it is `0` or the value of some slot. Whenever at least one
slot's envelope value is non-negative, it is the maximum over the slots. -/
theorem FMASynthStream.get_env_is_max_with_zero (s : FMASynthStream) :
    (∀ i, (s.voices i).voice.env.get_value (s.voices i).pos ≤ s.get_env) ∧
    0 ≤ s.get_env ∧
    (s.get_env = 0 ∨ ∃ i, s.get_env = (s.voices i).voice.env.get_value (s.voices i).pos) ∧
    ((∃ i, 0 ≤ (s.voices i).voice.env.get_value (s.voices i).pos) →
      ∃ i, s.get_env = (s.voices i).voice.env.get_value (s.voices i).pos ∧
        ∀ j, (s.voices j).voice.env.get_value (s.voices j).pos ≤
          (s.voices i).voice.env.get_value (s.voices i).pos) := by
  have e : (Fin.succ 2 : Fin 4) = 3 := rfl
  have hall : ∀ i, (s.voices i).voice.env.get_value (s.voices i).pos ≤ s.get_env := by
    rw [FMASynthStream.get_env_eq_max]
    simp [Fin.forall_fin_succ, e]
  have h0 : 0 ≤ s.get_env := by
    rw [FMASynthStream.get_env_eq_max]
    simp
  have hsel : s.get_env = 0 ∨
      ∃ i, s.get_env = (s.voices i).voice.env.get_value (s.voices i).pos := by
    rw [FMASynthStream.get_env_eq_max]
    rcases max_choice (max (max (max 0 ((s.voices 0).voice.env.get_value (s.voices 0).pos))
        ((s.voices 1).voice.env.get_value (s.voices 1).pos))
        ((s.voices 2).voice.env.get_value (s.voices 2).pos))
        ((s.voices 3).voice.env.get_value (s.voices 3).pos) with h3 | h3
    · rw [h3]
      rcases max_choice (max (max 0 ((s.voices 0).voice.env.get_value (s.voices 0).pos))
          ((s.voices 1).voice.env.get_value (s.voices 1).pos))
          ((s.voices 2).voice.env.get_value (s.voices 2).pos) with h2 | h2
      · rw [h2]
        rcases max_choice (max 0 ((s.voices 0).voice.env.get_value (s.voices 0).pos))
            ((s.voices 1).voice.env.get_value (s.voices 1).pos) with h1 | h1
        · rw [h1]
          rcases max_choice 0 ((s.voices 0).voice.env.get_value (s.voices 0).pos) with h | h
          · exact Or.inl h
          · exact Or.inr ⟨0, h⟩
        · exact Or.inr ⟨1, h1⟩
      · exact Or.inr ⟨2, h2⟩
    · exact Or.inr ⟨3, h3⟩
  refine ⟨hall, h0, hsel, ?_⟩
  rintro ⟨k, hk⟩
  rcases hsel with hz | ⟨i, hi⟩
  · refine ⟨k, ?_, ?_⟩
    · have := hall k
      rw [hz] at this ⊢
      exact le_antisymm hk this
    · intro j
      have hj := hall j
      rw [hz] at hj
      exact le_trans hj hk
  · exact ⟨i, hi, fun j => hi ▸ hall j⟩

/-- Witness for C11 (as amended): on a fresh engine with note `60` started,
slot `0` has a non-negative envelope value, so `get_env` is the value of some
slot that bounds all the others. -/
theorem FMASynthStream.get_env_is_max_with_zero_witness :
    ∃ i, ((FMASynthStream.new (fun _ => 0)).note_on Ext.sample 60 1).get_env =
        ((((FMASynthStream.new (fun _ => 0)).note_on Ext.sample 60 1).voices i).voice.env.get_value
          (((FMASynthStream.new (fun _ => 0)).note_on Ext.sample 60 1).voices i).pos) ∧
      ∀ j, ((((FMASynthStream.new (fun _ => 0)).note_on Ext.sample 60 1).voices j).voice.env.get_value
          (((FMASynthStream.new (fun _ => 0)).note_on Ext.sample 60 1).voices j).pos) ≤
        ((((FMASynthStream.new (fun _ => 0)).note_on Ext.sample 60 1).voices i).voice.env.get_value
          (((FMASynthStream.new (fun _ => 0)).note_on Ext.sample 60 1).voices i).pos) :=
  (FMASynthStream.get_env_is_max_with_zero
    ((FMASynthStream.new (fun _ => 0)).note_on Ext.sample 60 1)).2.2.2 ⟨0, by decide!⟩

/-- C11 (counterexample): on a fresh engine, four notes are started with
velocity `-1` and one sample is rendered. Every slot's envelope then evaluates
to `-2/441` at its position `1`, so the maximum over the slots is `-2/441`, but
`get_env` returns `0`. -/
theorem FMASynthStream.get_env_not_max_of_negative :
    (∀ i, (FMASynthStream.negative_velocity_example.voices i).pos = 1 ∧
      (FMASynthStream.negative_velocity_example.voices i).voice.env.get_value 1 = -2 / 441) ∧
    FMASynthStream.negative_velocity_example.get_env = 0 := by
  decide!

/-! ### The per-slot update of set_param -/

/-- Two sounds have equal timbre parameters exactly when the fourteen components
agree. -/
theorem FMASound.timbre_eq_iff (a b : FMASound) :
    a.timbre = b.timbre ↔
      a.voice.volume = b.voice.volume ∧
      a.voice.vibrato.hz_glide = b.voice.vibrato.hz_glide ∧
      a.voice.vibrato.amp_glide = b.voice.vibrato.amp_glide ∧
      a.partials_glide = b.partials_glide ∧
      (∀ k, (a.partials_lfos k).hz_glide = (b.partials_lfos k).hz_glide) ∧
      (∀ k, (a.partials_lfos k).amp_glide = (b.partials_lfos k).amp_glide) ∧
      (∀ k, (a.oscs k).wave_type = (b.oscs k).wave_type) ∧
      a.mod.wave_type = b.mod.wave_type ∧
      a.fm_ratio = b.fm_ratio ∧
      a.fm_amp = b.fm_amp ∧
      a.voice.pitch.length = b.voice.pitch.length ∧
      a.voice.env.attack = b.voice.env.attack ∧
      a.voice.env.decay = b.voice.env.decay ∧
      a.voice.env.sustain = b.voice.env.sustain := by
  simp only [FMASound.timbre, Timbre.mk.injEq, funext_iff]

/-- Each setter that `set_param` dispatches to maps sounds with equal timbre
parameters and equal positions to sounds with equal timbre parameters. -/
theorem FMASound.setters_timbre (a b : FMASound) (value : ℚ) (t : Int)
    (ht : a.timbre = b.timbre) (hpos : a.pos = b.pos) :
    (a.set_volume value).timbre = (b.set_volume value).timbre ∧
    (a.set_vibrato value).timbre = (b.set_vibrato value).timbre ∧
    (a.set_partials value).timbre = (b.set_partials value).timbre ∧
    (a.set_partials_wobble value).timbre = (b.set_partials_wobble value).timbre ∧
    (a.set_base_wave_type t).timbre = (b.set_base_wave_type t).timbre ∧
    (a.set_partials_wave_type t).timbre = (b.set_partials_wave_type t).timbre ∧
    (a.set_fm_ratio value).timbre = (b.set_fm_ratio value).timbre ∧
    (a.set_fm_amp value).timbre = (b.set_fm_amp value).timbre ∧
    (a.set_glide value).timbre = (b.set_glide value).timbre ∧
    (a.set_attack value).timbre = (b.set_attack value).timbre ∧
    (a.set_decay value).timbre = (b.set_decay value).timbre ∧
    (a.set_sustain value).timbre = (b.set_sustain value).timbre := by
  obtain ⟨h1, h2, h3, h4, h5, h6, h7, h8, h9, h10, h11, h12, h13, h14⟩ :=
    (FMASound.timbre_eq_iff a b).mp ht
  refine ⟨?_, ?_, ?_, ?_, ?_, ?_, ?_, ?_, ?_, ?_, ?_, ?_⟩
  · rw [FMASound.timbre_eq_iff]
    simp only [FMASound.set_volume, Voice.set_volume]
    exact ⟨by rw [h1, hpos], h2, h3, h4, h5, h6, h7, h8, h9, h10, h11, h12, h13, h14⟩
  · rw [FMASound.timbre_eq_iff]
    simp only [FMASound.set_vibrato, Voice.set_vibrato, LFO.set_amp, LFO.set_hz]
    exact ⟨h1, by rw [h2, hpos], by rw [h3, hpos], h4, h5, h6, h7, h8, h9, h10, h11, h12, h13, h14⟩
  · rw [FMASound.timbre_eq_iff]
    simp only [FMASound.set_partials]
    exact ⟨h1, h2, h3, by rw [h4, hpos], h5, h6, h7, h8, h9, h10, h11, h12, h13, h14⟩
  · rw [FMASound.timbre_eq_iff]
    simp only [FMASound.set_partials_wobble, LFO.set_amp]
    exact ⟨h1, h2, h3, h4, h5, fun k => by rw [h6 k, hpos], h7, h8, h9, h10, h11, h12, h13, h14⟩
  · unfold FMASound.set_base_wave_type
    split_ifs
    · rw [FMASound.timbre_eq_iff]
      refine ⟨h1, h2, h3, h4, h5, h6, ?_, rfl, h9, h10, h11, h12, h13, h14⟩
      intro k
      by_cases hk : k = 0
      · subst hk; simp
      · simp [Function.update_noteq hk, h7 k]
    · exact ht
  · unfold FMASound.set_partials_wave_type
    split_ifs
    · rw [FMASound.timbre_eq_iff]
      refine ⟨h1, h2, h3, h4, h5, h6, ?_, h8, h9, h10, h11, h12, h13, h14⟩
      intro k
      by_cases hk : 1 ≤ k.val
      · simp [hk]
      · simp [hk, h7 k]
    · exact ht
  · rw [FMASound.timbre_eq_iff]
    simp only [FMASound.set_fm_ratio]
    exact ⟨h1, h2, h3, h4, h5, h6, h7, h8, trivial, h10, h11, h12, h13, h14⟩
  · rw [FMASound.timbre_eq_iff]
    simp only [FMASound.set_fm_amp]
    exact ⟨h1, h2, h3, h4, h5, h6, h7, h8, h9, trivial, h11, h12, h13, h14⟩
  · rw [FMASound.timbre_eq_iff]
    simp only [FMASound.set_glide, Voice.set_glide]
    exact ⟨h1, h2, h3, h4, h5, h6, h7, h8, h9, h10, trivial, h12, h13, h14⟩
  · rw [FMASound.timbre_eq_iff]
    simp only [FMASound.set_attack, Voice.set_attack]
    exact ⟨h1, h2, h3, h4, h5, h6, h7, h8, h9, h10, h11, trivial, h13, h14⟩
  · rw [FMASound.timbre_eq_iff]
    simp only [FMASound.set_decay, Voice.set_decay]
    exact ⟨h1, h2, h3, h4, h5, h6, h7, h8, h9, h10, h11, h12, trivial, h14⟩
  · rw [FMASound.timbre_eq_iff]
    simp only [FMASound.set_sustain, Voice.set_sustain]
    exact ⟨h1, h2, h3, h4, h5, h6, h7, h8, h9, h10, h11, h12, h13, trivial⟩

/-- The `switch` of `set_param`: for a given id the per-slot update is one of the
twelve setters, or nothing, the same for every sound. -/
theorem FMASound.set_param_cases (param : Int) (value : ℚ) :
    (∀ c : FMASound, c.set_param param value = c.set_volume value) ∨
    (∀ c : FMASound, c.set_param param value = c.set_vibrato value) ∨
    (∀ c : FMASound, c.set_param param value = c.set_partials value) ∨
    (∀ c : FMASound, c.set_param param value = c.set_partials_wobble value) ∨
    (∀ c : FMASound, c.set_param param value = c.set_base_wave_type (truncToInt value)) ∨
    (∀ c : FMASound, c.set_param param value = c.set_partials_wave_type (truncToInt value)) ∨
    (∀ c : FMASound, c.set_param param value = c.set_fm_ratio value) ∨
    (∀ c : FMASound, c.set_param param value = c.set_fm_amp value) ∨
    (∀ c : FMASound, c.set_param param value = c.set_glide value) ∨
    (∀ c : FMASound, c.set_param param value = c.set_attack value) ∨
    (∀ c : FMASound, c.set_param param value = c.set_decay value) ∨
    (∀ c : FMASound, c.set_param param value = c.set_sustain value) ∨
    (∀ c : FMASound, c.set_param param value = c) := by
  by_cases h0 : param = 0
  · refine Or.inl fun c => ?_
    simp only [FMASound.set_param, if_pos h0]
  · by_cases h1 : param = 1
    · refine Or.inr (Or.inl fun c => ?_)
      simp only [FMASound.set_param, if_neg h0, if_pos h1]
    · by_cases h2 : param = 2
      · refine Or.inr (Or.inr (Or.inl fun c => ?_))
        simp only [FMASound.set_param, if_neg h0, if_neg h1, if_pos h2]
      · by_cases h3 : param = 3
        · refine Or.inr (Or.inr (Or.inr (Or.inl fun c => ?_)))
          simp only [FMASound.set_param, if_neg h0, if_neg h1, if_neg h2, if_pos h3]
        · by_cases h4 : param = 4
          · refine Or.inr (Or.inr (Or.inr (Or.inr (Or.inl fun c => ?_))))
            simp only [FMASound.set_param, if_neg h0, if_neg h1, if_neg h2, if_neg h3, if_pos h4]
          · by_cases h5 : param = 5
            · refine Or.inr (Or.inr (Or.inr (Or.inr (Or.inr (Or.inl fun c => ?_)))))
              simp only [FMASound.set_param, if_neg h0, if_neg h1, if_neg h2, if_neg h3, if_neg h4, if_pos h5]
            · by_cases h6 : param = 6
              · refine Or.inr (Or.inr (Or.inr (Or.inr (Or.inr (Or.inr (Or.inl fun c => ?_))))))
                simp only [FMASound.set_param, if_neg h0, if_neg h1, if_neg h2, if_neg h3, if_neg h4, if_neg h5, if_pos h6]
              · by_cases h7 : param = 7
                · refine Or.inr (Or.inr (Or.inr (Or.inr (Or.inr (Or.inr (Or.inr (Or.inl fun c => ?_)))))))
                  simp only [FMASound.set_param, if_neg h0, if_neg h1, if_neg h2, if_neg h3, if_neg h4, if_neg h5, if_neg h6, if_pos h7]
                · by_cases h8 : param = 8
                  · refine Or.inr (Or.inr (Or.inr (Or.inr (Or.inr (Or.inr (Or.inr (Or.inr (Or.inl fun c => ?_))))))))
                    simp only [FMASound.set_param, if_neg h0, if_neg h1, if_neg h2, if_neg h3, if_neg h4, if_neg h5, if_neg h6, if_neg h7, if_pos h8]
                  · by_cases h9 : param = 9
                    · refine Or.inr (Or.inr (Or.inr (Or.inr (Or.inr (Or.inr (Or.inr (Or.inr (Or.inr (Or.inl fun c => ?_)))))))))
                      simp only [FMASound.set_param, if_neg h0, if_neg h1, if_neg h2, if_neg h3, if_neg h4, if_neg h5, if_neg h6, if_neg h7, if_neg h8, if_pos h9]
                    · by_cases h10 : param = 10
                      · refine Or.inr (Or.inr (Or.inr (Or.inr (Or.inr (Or.inr (Or.inr (Or.inr (Or.inr (Or.inr (Or.inl fun c => ?_))))))))))
                        simp only [FMASound.set_param, if_neg h0, if_neg h1, if_neg h2, if_neg h3, if_neg h4, if_neg h5, if_neg h6, if_neg h7, if_neg h8, if_neg h9, if_pos h10]
                      · by_cases h11 : param = 11
                        · refine Or.inr (Or.inr (Or.inr (Or.inr (Or.inr (Or.inr (Or.inr (Or.inr (Or.inr (Or.inr (Or.inr (Or.inl fun c => ?_)))))))))))
                          simp only [FMASound.set_param, if_neg h0, if_neg h1, if_neg h2, if_neg h3, if_neg h4, if_neg h5, if_neg h6, if_neg h7, if_neg h8, if_neg h9, if_neg h10, if_pos h11]
                        · refine Or.inr (Or.inr (Or.inr (Or.inr (Or.inr (Or.inr (Or.inr (Or.inr (Or.inr (Or.inr (Or.inr (Or.inr (fun c => ?_))))))))))))
                          simp only [FMASound.set_param, if_neg h0, if_neg h1, if_neg h2, if_neg h3, if_neg h4, if_neg h5, if_neg h6, if_neg h7, if_neg h8, if_neg h9, if_neg h10, if_neg h11]

/-- The per-slot update of `set_param` leaves the position counter alone. -/
theorem FMASound.set_param_pos (c : FMASound) (param : Int) (value : ℚ) :
    (c.set_param param value).pos = c.pos := by
  have hb : ∀ t : Int, (c.set_base_wave_type t).pos = c.pos := by
    intro t; unfold FMASound.set_base_wave_type; split_ifs <;> rfl
  have hw : ∀ t : Int, (c.set_partials_wave_type t).pos = c.pos := by
    intro t; unfold FMASound.set_partials_wave_type; split_ifs <;> rfl
  rcases FMASound.set_param_cases param value with
    h | h | h | h | h | h | h | h | h | h | h | h | h <;> rw [h c]
  · rfl
  · rfl
  · rfl
  · rfl
  · exact hb _
  · exact hw _
  · rfl
  · rfl
  · rfl
  · rfl
  · rfl
  · rfl

/-- The per-slot update of `set_param` maps sounds with equal timbre parameters
and equal positions to sounds with equal timbre parameters and equal
positions. -/
theorem FMASound.set_param_timbre (a b : FMASound) (param : Int) (value : ℚ)
    (ht : a.timbre = b.timbre) (hpos : a.pos = b.pos) :
    (a.set_param param value).timbre = (b.set_param param value).timbre ∧
    (a.set_param param value).pos = (b.set_param param value).pos := by
  obtain ⟨s0, s1, s2, s3, s4, s5, s6, s7, s8, s9, s10, s11⟩ :=
    FMASound.setters_timbre a b value (truncToInt value) ht hpos
  refine ⟨?_, by rw [FMASound.set_param_pos, FMASound.set_param_pos, hpos]⟩
  rcases FMASound.set_param_cases param value with
    h | h | h | h | h | h | h | h | h | h | h | h | h <;> rw [h a, h b]
  · exact s0
  · exact s1
  · exact s2
  · exact s3
  · exact s4
  · exact s5
  · exact s6
  · exact s7
  · exact s8
  · exact s9
  · exact s10
  · exact s11
  · exact ht

/-- The per-slot update of `set_param` does nothing for an id outside `0..11`. -/
theorem FMASound.set_param_unknown (a : FMASound) (param : Int) (value : ℚ)
    (h : param < 0 ∨ param > 11) : a.set_param param value = a := by
  have h0 : param ≠ 0 := by omega
  have h1 : param ≠ 1 := by omega
  have h2 : param ≠ 2 := by omega
  have h3 : param ≠ 3 := by omega
  have h4 : param ≠ 4 := by omega
  have h5 : param ≠ 5 := by omega
  have h6 : param ≠ 6 := by omega
  have h7 : param ≠ 7 := by omega
  have h8 : param ≠ 8 := by omega
  have h9 : param ≠ 9 := by omega
  have h10 : param ≠ 10 := by omega
  have h11 : param ≠ 11 := by omega
  simp only [FMASound.set_param, if_neg h0, if_neg h1, if_neg h2, if_neg h3, if_neg h4,
    if_neg h5, if_neg h6, if_neg h7, if_neg h8, if_neg h9, if_neg h10, if_neg h11]

/-! ### Rendering leaves the parameters and the slot map alone -/

/-- One partial of one sample leaves the timbre parameters unchanged. -/
theorem FMASound.partial_step_timbre (E : Ext) (hz : ℚ) (acc : ℚ × FMASound)
    (j : Fin (PARTIALS - 1)) :
    (FMASound.partial_step E hz acc j).2.timbre = acc.2.timbre := by
  rw [FMASound.timbre_eq_iff]
  refine ⟨rfl, rfl, rfl, rfl, ?_, ?_, ?_, rfl, rfl, rfl, rfl, rfl, rfl, rfl⟩
  · intro k
    by_cases hk : k = j
    · subst hk; simp [FMASound.partial_step, LFO.get_value]
    · simp [FMASound.partial_step, Function.update_noteq hk]
  · intro k
    by_cases hk : k = j
    · subst hk; simp [FMASound.partial_step, LFO.get_value]
    · simp [FMASound.partial_step, Function.update_noteq hk]
  · intro k
    by_cases hk : k = (⟨j.val + 1, by omega⟩ : Fin PARTIALS)
    · subst hk; simp [FMASound.partial_step, Osc.gen_sample]
    · simp [FMASound.partial_step, Function.update_noteq hk]

/-- The partials of one sample leave the timbre parameters unchanged. -/
theorem FMASound.foldl_partial_step_timbre (E : Ext) (hz : ℚ) (l : List (Fin (PARTIALS - 1))) :
    ∀ acc : ℚ × FMASound,
      (l.foldl (FMASound.partial_step E hz) acc).2.timbre = acc.2.timbre := by
  induction l with
  | nil => intro acc; rfl
  | cons j l ih =>
    intro acc
    rw [List.foldl_cons, ih, FMASound.partial_step_timbre]

/-- Rendering one sample leaves the timbre parameters unchanged. -/
theorem FMASound.sample_step_timbre (E : Ext) (s : FMASound) (pcm_buf : List Int) (idx : Nat) :
    (s.sample_step E pcm_buf idx).2.timbre = s.timbre := by
  have h := FMASound.foldl_partial_step_timbre E (s.voice.get_hz E s.pos).1
    (List.finRange (PARTIALS - 1))
  simp only [FMASound.sample_step]
  rw [FMASound.timbre_eq_iff]
  obtain ⟨f1, f2, f3, f4, f5, f6, f7, f8, f9, f10, f11, f12, f13, f14⟩ :=
    (FMASound.timbre_eq_iff _ _).mp (h
      (((s.oscs 0).gen_sample E ((s.voice.get_hz E s.pos).1 +
          (s.mod.gen_sample E ((s.voice.get_hz E s.pos).1 * s.fm_ratio)).1 * s.fm_amp)).1,
        { s with
          voice := (s.voice.get_hz E s.pos).2,
          mod := (s.mod.gen_sample E ((s.voice.get_hz E s.pos).1 * s.fm_ratio)).2,
          oscs := Function.update s.oscs 0
            ((s.oscs 0).gen_sample E ((s.voice.get_hz E s.pos).1 +
              (s.mod.gen_sample E ((s.voice.get_hz E s.pos).1 * s.fm_ratio)).1 * s.fm_amp)).2 }))
  refine ⟨f1, f2, f3, f4, f5, f6, ?_, f8, f9, f10, f11, f12, f13, f14⟩
  intro k
  rw [f7 k]
  by_cases hk : k = 0
  · subst hk; simp [Osc.gen_sample]
  · simp [Function.update_noteq hk]

/-- Rendering any number of samples leaves the timbre parameters unchanged. -/
theorem FMASound.gen_loop_timbre (E : Ext) (n : Nat) :
    ∀ (idx : Nat) (s : FMASound) (pcm_buf : List Int),
      (FMASound.gen_loop E n idx s pcm_buf).2.timbre = s.timbre := by
  induction n with
  | zero => intro idx s pcm_buf; rfl
  | succ n ih =>
    intro idx s pcm_buf
    simp only [FMASound.gen_loop]
    rw [ih, FMASound.sample_step_timbre]

/-- `FMASound::gen_sound` leaves the timbre parameters unchanged. -/
theorem FMASound.gen_sound_timbre (E : Ext) (s : FMASound) (pcm_buf : List Int) (size : Int) :
    (s.gen_sound E pcm_buf size).2.timbre = s.timbre :=
  FMASound.gen_loop_timbre E size.toNat 0 s pcm_buf

/-- Rendering a list of slots leaves the slot map and every slot's timbre
parameters unchanged. -/
theorem FMASynthStream.foldl_gen_slot_frame (E : Ext) (size : Int) (l : List (Fin POLYPHONY)) :
    ∀ acc : List Int × FMASynthStream,
      (l.foldl (FMASynthStream.gen_slot E size) acc).2.poly = acc.2.poly ∧
      ∀ k, ((l.foldl (FMASynthStream.gen_slot E size) acc).2.voices k).timbre =
        (acc.2.voices k).timbre := by
  induction l with
  | nil => intro acc; exact ⟨rfl, fun _ => rfl⟩
  | cons i l ih =>
    intro acc
    rw [List.foldl_cons]
    obtain ⟨hp, ht⟩ := ih (FMASynthStream.gen_slot E size acc i)
    refine ⟨hp.trans rfl, fun k => (ht k).trans ?_⟩
    by_cases hk : k = i
    · subst hk
      simp [FMASynthStream.gen_slot, FMASound.gen_sound_timbre]
    · simp [FMASynthStream.gen_slot, Function.update_noteq hk]

/-- `FMASynthStream::gen_sound` leaves the slot map and every slot's timbre
parameters unchanged. -/
theorem FMASynthStream.gen_sound_frame (E : Ext) (s : FMASynthStream) (pcm_buf : List Int)
    (size : Int) :
    (s.gen_sound E pcm_buf size).2.poly = s.poly ∧
    ∀ k, ((s.gen_sound E pcm_buf size).2.voices k).timbre = (s.voices k).timbre :=
  FMASynthStream.foldl_gen_slot_frame E size (List.finRange POLYPHONY) (pcm_buf, s)

/-! ### Divisors -/

/-- The checked `Glide::get_value` never fails: the division by `length` is only
reached when `length > 0`. -/
theorem Glide.checked_glide_value_eq (g : Glide) (pos : Nat) :
    g.get_value_checked pos = some (g.get_value pos) := by
  unfold Glide.get_value_checked Glide.get_value checked_div
  by_cases h : g.length > 0 ∧ float_of_u64 (u64sub pos g.attack_t) * (1000 / MIX_RATE) < g.length
  · simp only [if_pos h, if_pos (show (0 : ℚ) < g.length from h.1), Option.map_some']
  · simp only [if_neg h]

/-- Elapsed times are non-negative. -/
theorem elapsed_nonneg (a b : Nat) : (0 : ℚ) ≤ (u64sub a b : ℚ) * (1000 / MIX_RATE) := by
  have h1 : (0 : ℚ) ≤ (u64sub a b : ℚ) := Nat.cast_nonneg _
  have h2 : (0 : ℚ) ≤ 1000 / MIX_RATE := by norm_num [MIX_RATE]
  exact mul_nonneg h1 h2

/-- The checked `Env::get_value` never fails: each division by `attack` or
`decay` is only reached on a branch whose guard makes the divisor strictly
positive. -/
theorem Env.checked_env_value_eq (e : Env) (pos : Nat) :
    e.get_value_checked pos = some (e.get_value pos) := by
  have hel := elapsed_nonneg pos e.attack_t
  have hes := elapsed_nonneg pos e.release_t
  unfold Env.get_value_checked Env.get_value checked_div
  by_cases h1 : e.held = true ∧ (u64sub pos e.attack_t : ℚ) * (1000 / MIX_RATE) < e.attack
  · have ha : (0 : ℚ) < e.attack := lt_of_le_of_lt hel h1.2
    simp only [if_pos h1, if_pos ha, Option.map_some']
  · by_cases h2 : e.held = true ∧
        (u64sub pos e.attack_t : ℚ) * (1000 / MIX_RATE) < e.attack + e.decay
    · have hge : e.attack ≤ (u64sub pos e.attack_t : ℚ) * (1000 / MIX_RATE) := by
        by_contra hlt
        exact h1 ⟨h2.1, not_le.mp hlt⟩
      have hd : (0 : ℚ) < e.decay := by linarith [h2.2]
      simp only [if_neg h1, if_pos h2, if_pos hd, Option.map_some']
    · by_cases h3 : e.held = true
      · simp only [if_neg h1, if_neg h2, if_pos h3]
      · by_cases h4 : (u64sub pos e.release_t : ℚ) * (1000 / MIX_RATE) < e.decay
        · have hd : (0 : ℚ) < e.decay := lt_of_le_of_lt hes h4
          simp only [if_neg h1, if_neg h2, if_neg h3, if_pos h4, if_pos hd, Option.map_some']
        · simp only [if_neg h1, if_neg h2, if_neg h3, if_neg h4]

/-- A freshly constructed sound has its divisors in range. -/
theorem FMASound.new_divisors_ok (seed : Nat → Nat) :
    (FMASound.new seed).timbre.divisors_ok := by
  refine ⟨?_, ?_, ?_, ?_, ?_, ?_, ?_, ?_, ?_⟩ <;>
    simp [FMASound.timbre, FMASound.new, LFO.set_hz, Glide.start_glide]

/-- `FMASound::reset` leaves the timbre parameters unchanged. -/
theorem FMASound.reset_timbre (a : FMASound) : a.reset.timbre = a.timbre := by
  rw [FMASound.timbre_eq_iff]
  exact ⟨rfl, rfl, rfl, rfl, fun _ => rfl, fun _ => rfl, fun _ => rfl, rfl, rfl, rfl, rfl, rfl,
    rfl, rfl⟩

/-- `FMASound::note_on` leaves the timbre parameters unchanged. -/
theorem FMASound.note_on_timbre (E : Ext) (a : FMASound) (note : Int) (velocity : ℚ) :
    (a.note_on E note velocity).timbre = a.timbre := by
  rw [FMASound.timbre_eq_iff]
  exact ⟨rfl, rfl, rfl, rfl, fun _ => rfl, fun _ => rfl, fun _ => rfl, rfl, rfl, rfl, rfl, rfl,
    rfl, rfl⟩

/-- `FMASound::note_off` leaves the timbre parameters unchanged. -/
theorem FMASound.note_off_timbre (a : FMASound) : a.note_off.timbre = a.timbre := by
  rw [FMASound.timbre_eq_iff]
  exact ⟨rfl, rfl, rfl, rfl, fun _ => rfl, fun _ => rfl, fun _ => rfl, rfl, rfl, rfl, rfl, rfl,
    rfl, rfl⟩

/-- The wave-type setters keep the divisors in range. -/
theorem FMASound.set_wave_type_divisors_ok (a : FMASound) (t : Int)
    (h : a.timbre.divisors_ok) :
    (a.set_base_wave_type t).timbre.divisors_ok ∧
    (a.set_partials_wave_type t).timbre.divisors_ok := by
  constructor
  · unfold FMASound.set_base_wave_type
    split_ifs
    · exact h
    · exact h
  · unfold FMASound.set_partials_wave_type
    split_ifs
    · exact h
    · exact h

/-- The per-slot update of `set_param` keeps the divisors in range, for every id
and every value. -/
theorem FMASound.set_param_divisors_ok (a : FMASound) (param : Int) (value : ℚ)
    (h : a.timbre.divisors_ok) : (a.set_param param value).timbre.divisors_ok := by
  have hsq : (0 : ℚ) ≤ value * value := mul_self_nonneg value
  obtain ⟨h1, h2, h3, h4, h5, h6, h7, h8, h9⟩ := h
  rcases FMASound.set_param_cases param value with
    c | c | c | c | c | c | c | c | c | c | c | c | c <;> rw [c a]
  · exact ⟨h1, h2, h3, h4, h5, h6, h7, h8, h9⟩
  · exact ⟨h1, h2, h3, h4, h5, h6, h7, h8, h9⟩
  · exact ⟨h1, h2, h3, h4, h5, h6, h7, h8, h9⟩
  · exact ⟨h1, h2, h3, h4, h5, h6, h7, h8, h9⟩
  · exact (FMASound.set_wave_type_divisors_ok a _ ⟨h1, h2, h3, h4, h5, h6, h7, h8, h9⟩).1
  · exact (FMASound.set_wave_type_divisors_ok a _ ⟨h1, h2, h3, h4, h5, h6, h7, h8, h9⟩).2
  · exact ⟨h1, h2, h3, h4, h5, h6, h7, h8, h9⟩
  · exact ⟨h1, h2, h3, h4, h5, h6, h7, h8, h9⟩
  · refine ⟨h1, h2, ?_, h4, h5, h6, h7, h8, h9⟩
    show (0 : ℚ) ≤ value * value * 2000
    linarith
  · refine ⟨?_, h2, h3, h4, h5, h6, h7, h8, h9⟩
    show (5 : ℚ) ≤ value * value * 995 + 5
    linarith
  · refine ⟨h1, ?_, h3, h4, h5, h6, h7, h8, h9⟩
    show (5 : ℚ) ≤ value * value * 995 + 5
    linarith
  · exact ⟨h1, h2, h3, h4, h5, h6, h7, h8, h9⟩
  · exact ⟨h1, h2, h3, h4, h5, h6, h7, h8, h9⟩

/-- In every reachable state every slot has its divisors in range. -/
theorem FMASynthStream.reachable_divisors_ok (E : Ext) (s : FMASynthStream)
    (h : FMASynthStream.Reachable E s) : ∀ i, (s.voices i).timbre.divisors_ok := by
  induction h with
  | new seed => intro i; exact FMASound.new_divisors_ok _
  | reset s _ ih =>
    intro i
    show ((s.voices i).reset).timbre.divisors_ok
    rw [FMASound.reset_timbre]; exact ih i
  | set_position s p _ ih => exact ih
  | note_on s note velocity _ ih =>
    intro i
    unfold FMASynthStream.note_on
    split_ifs
    · by_cases hi : i = s.choose_voice note
      · subst hi
        simp only [FMASynthStream.note_off, Function.update_same, FMASound.note_off_timbre]
        exact ih _
      · simp only [FMASynthStream.note_off, Function.update_noteq hi]
        exact ih i
    · by_cases hi : i = s.choose_voice note
      · subst hi
        simp only [Function.update_same, FMASound.note_on_timbre]
        exact ih _
      · simp only [Function.update_noteq hi]
        exact ih i
  | note_off s note _ ih =>
    intro i
    by_cases hi : i = s.choose_voice note
    · subst hi
      simp only [FMASynthStream.note_off, Function.update_same, FMASound.note_off_timbre]
      exact ih _
    · simp only [FMASynthStream.note_off, Function.update_noteq hi]
      exact ih i
  | set_param s param value _ ih =>
    intro i
    exact FMASound.set_param_divisors_ok (s.voices i) param value (ih i)
  | gen_sound s pcm_buf size _ ih =>
    intro i
    rw [(FMASynthStream.gen_sound_frame E s pcm_buf size).2 i]
    exact ih i

/-- C12: division by zero is unreachable. In every state reachable from
construction through `reset`, `set_position`, `note_on`, `note_off`,
`set_param` (any id, any value) and `gen_sound`, every slot's envelope has
`attack ≥ 5` and `decay ≥ 5` and every glide (pitch, volume, the two glides of
the vibrato LFO, the partial amount and the two glides of every wobble LFO) has
`length ≥ 0`; and `Glide::get_value` and `Env::get_value` reach a division by
`length`, `attack` or `decay` only with a strictly positive divisor: their
checked versions never fail and return the same value. -/
theorem FMASynthStream.no_division_by_zero (E : Ext) (s : FMASynthStream)
    (h : FMASynthStream.Reachable E s) :
    (∀ i, 5 ≤ (s.voices i).voice.env.attack ∧ 5 ≤ (s.voices i).voice.env.decay ∧
      0 ≤ (s.voices i).voice.pitch.length ∧ 0 ≤ (s.voices i).voice.volume.length ∧
      0 ≤ (s.voices i).voice.vibrato.hz_glide.length ∧
      0 ≤ (s.voices i).voice.vibrato.amp_glide.length ∧
      0 ≤ (s.voices i).partials_glide.length ∧
      (∀ k, 0 ≤ ((s.voices i).partials_lfos k).hz_glide.length) ∧
      (∀ k, 0 ≤ ((s.voices i).partials_lfos k).amp_glide.length)) ∧
    (∀ (g : Glide) (pos : Nat), g.get_value_checked pos = some (g.get_value pos)) ∧
    (∀ (e : Env) (pos : Nat), e.get_value_checked pos = some (e.get_value pos)) :=
  ⟨fun i => FMASynthStream.reachable_divisors_ok E s h i, Glide.checked_glide_value_eq,
    Env.checked_env_value_eq⟩

/-- Witness for C12: after `set_param(ATTACK, 0)`, `set_param(GLIDE, 0)`,
`note_on(60, 1)` and three rendered samples on a fresh engine, slot `0` has
`attack ≥ 5`, `decay ≥ 5` and a pitch glide of non-negative length. -/
theorem FMASynthStream.no_division_by_zero_witness :
    5 ≤ ((((((FMASynthStream.new (fun _ => 0)).set_param 9 0).set_param 8 0).note_on
      Ext.sample 60 1).gen_sound Ext.sample [0, 0, 0] 3).2.voices 0).voice.env.attack ∧
    5 ≤ ((((((FMASynthStream.new (fun _ => 0)).set_param 9 0).set_param 8 0).note_on
      Ext.sample 60 1).gen_sound Ext.sample [0, 0, 0] 3).2.voices 0).voice.env.decay ∧
    0 ≤ ((((((FMASynthStream.new (fun _ => 0)).set_param 9 0).set_param 8 0).note_on
      Ext.sample 60 1).gen_sound Ext.sample [0, 0, 0] 3).2.voices 0).voice.pitch.length :=
  ⟨((FMASynthStream.no_division_by_zero Ext.sample _
      (.gen_sound _ [0, 0, 0] 3 (.note_on _ 60 1 (.set_param _ 8 0 (.set_param _ 9 0
        (.new (fun _ => 0))))))).1 0).1,
   ((FMASynthStream.no_division_by_zero Ext.sample _
      (.gen_sound _ [0, 0, 0] 3 (.note_on _ 60 1 (.set_param _ 8 0 (.set_param _ 9 0
        (.new (fun _ => 0))))))).1 0).2.1,
   ((FMASynthStream.no_division_by_zero Ext.sample _
      (.gen_sound _ [0, 0, 0] 3 (.note_on _ 60 1 (.set_param _ 8 0 (.set_param _ 9 0
        (.new (fun _ => 0))))))).1 0).2.2.1⟩

/-! ### set_param -/

/-- C13: `set_param` broadcasts and rejects unknown ids. In every engine state
`set_param param value` applies the same per-slot update to every slot; when
all slots have equal timbre parameters and equal positions, they still have
equal timbre parameters (and positions) afterwards, for every id and value; and
for every id outside the twelve enumerated parameters (`param < 0` or
`param > 11`) the whole engine state is unchanged. -/
theorem FMASynthStream.set_param_broadcast (s : FMASynthStream) :
    (∀ (param : Int) (value : ℚ) (i : Fin POLYPHONY),
      (s.set_param param value).voices i = (s.voices i).set_param param value) ∧
    ((∀ i j, (s.voices i).timbre = (s.voices j).timbre ∧ (s.voices i).pos = (s.voices j).pos) →
      ∀ (param : Int) (value : ℚ) (i j : Fin POLYPHONY),
        ((s.set_param param value).voices i).timbre =
          ((s.set_param param value).voices j).timbre ∧
        ((s.set_param param value).voices i).pos = ((s.set_param param value).voices j).pos) ∧
    (∀ (param : Int) (value : ℚ), param < 0 ∨ param > 11 → s.set_param param value = s) := by
  refine ⟨fun _ _ _ => rfl, ?_, ?_⟩
  · intro h param value i j
    exact FMASound.set_param_timbre (s.voices i) (s.voices j) param value (h i j).1 (h i j).2
  · intro param value h
    have hv : (fun i => (s.voices i).set_param param value) = s.voices :=
      funext fun i => FMASound.set_param_unknown (s.voices i) param value h
    unfold FMASynthStream.set_param
    rw [hv]

/-- Witness for C13: on a fresh engine, whose slots have equal timbre parameters
and positions, setting the volume (`param = 0`) keeps slots `0` and `3` equal in
timbre, and the unknown id `12` changes nothing. -/
theorem FMASynthStream.set_param_broadcast_witness :
    ((((FMASynthStream.new (fun k => k)).set_param 0 (1 / 2)).voices 0).timbre =
      (((FMASynthStream.new (fun k => k)).set_param 0 (1 / 2)).voices 3).timbre ∧
     (((FMASynthStream.new (fun k => k)).set_param 0 (1 / 2)).voices 0).pos =
      (((FMASynthStream.new (fun k => k)).set_param 0 (1 / 2)).voices 3).pos) ∧
    (FMASynthStream.new (fun k => k)).set_param 12 (1 / 2) = FMASynthStream.new (fun k => k) :=
  ⟨(FMASynthStream.set_param_broadcast (FMASynthStream.new (fun k => k))).2.1
      (fun _ _ => ⟨rfl, rfl⟩) 0 (1 / 2) 0 3,
   (FMASynthStream.set_param_broadcast (FMASynthStream.new (fun k => k))).2.2 12 (1 / 2)
      (Or.inr (by decide))⟩

/-! ### Pitch mapping -/

/-- C14: equal-tempered pitch mapping. For every voice, position, note and
velocity, `note_on` restarts the pitch glide at `pos` toward
`440 * pow(2, (note - 69) / 12)`, where `pow` is the library function. When
`pow(2, 0) = 1` the target for note `69` is exactly `440`, and when
`pow(2, -1) = 1/2` the target for note `57` is exactly `220`. -/
theorem Voice.note_on_pitch_target (E : Ext) (v : Voice) (pos : Nat) (note : Int)
    (velocity : ℚ) :
    (v.note_on E pos note velocity).pitch.target_val =
      440 * E.pow 2 (((note : ℚ) - 69) / 12) ∧
    (v.note_on E pos note velocity).pitch.attack_t = pos ∧
    (v.note_on E pos note velocity).pitch.init_val = v.pitch.get_value pos ∧
    (E.pow 2 0 = 1 → (v.note_on E pos 69 velocity).pitch.target_val = 440) ∧
    (E.pow 2 (-1) = 1 / 2 → (v.note_on E pos 57 velocity).pitch.target_val = 220) := by
  refine ⟨rfl, rfl, rfl, ?_, ?_⟩
  · intro h
    have e : (((69 : Int) : ℚ) - 69) / 12 = 0 := by norm_num
    simp only [Voice.note_on, Glide.start_glide, e, h]
    norm_num
  · intro h
    have e : (((57 : Int) : ℚ) - 69) / 12 = -1 := by norm_num
    simp only [Voice.note_on, Glide.start_glide, e, h]
    norm_num

/-- Witness for C14: with a `pow` that is exact at integer exponents, a fresh
voice is aimed at `440` by note `69` and at `220` by note `57`. -/
theorem Voice.note_on_pitch_target_witness :
    (Voice.note_on Ext.exact_pow {} 0 69 1).pitch.target_val = 440 ∧
    (Voice.note_on Ext.exact_pow {} 0 57 1).pitch.target_val = 220 :=
  ⟨(Voice.note_on_pitch_target Ext.exact_pow {} 0 69 1).2.2.2.1 (by decide!),
   (Voice.note_on_pitch_target Ext.exact_pow {} 0 57 1).2.2.2.2 (by decide!)⟩

/-! ### Zero velocity -/

/-- C15: zero velocity means note-off. For every engine state and every note the
state after `note_on note 0` equals the state after `note_off note`. -/
theorem FMASynthStream.note_on_zero_velocity (E : Ext) (s : FMASynthStream) (note : Int) :
    s.note_on E note 0 = s.note_off note := by
  unfold FMASynthStream.note_on
  rw [if_pos rfl]

/-! ### Oscillator phases inside the engine -/

/-- C16 (the code at the failing input): in the state `fm_example`, reached
from a fresh engine through `set_param` with values in `[0, 1]`, `note_on`,
`note_off` and `gen_sound`, the carrier `oscs[0]` of slot `0` has phase
`13904/46305`, the square-wave modulator rests at phase `27808/46305 ≥ 0.5`
(so `m = -1`), `fm_amp = 600` and the pitch is `13.75 Hz`. The carrier is
therefore driven with a negative frequency, and after rendering `23` more
samples its phase is `-5839/987840`, outside `[0, 1)`. -/
theorem FMASynthStream.carrier_phase_negative :
    ((FMASynthStream.fm_example.voices 0).oscs 0).phase = 13904 / 46305 ∧
    (FMASynthStream.fm_example.voices 0).mod.phase = 27808 / 46305 ∧
    (FMASynthStream.fm_example.voices 0).mod.wave_type = 1 ∧
    (FMASynthStream.fm_example.voices 0).fm_amp = 600 ∧
    (FMASynthStream.fm_example.voices 0).voice.pitch.get_value 2 = 55 / 4 ∧
    ((((FMASynthStream.fm_example.gen_sound Ext.exact_pow (List.replicate 23 0) 23).2.voices
      0).oscs 0).phase) = -5839 / 987840 ∧
    ((((FMASynthStream.fm_example.gen_sound Ext.exact_pow (List.replicate 23 0) 23).2.voices
      0).oscs 0).phase) < 0 := by
  decide!

/-! ### Partial cross-fade shape -/

/-- For every partial `p ≠ 0`, `get_partial_vol p` is the closed-form cross-fade
shape of the amount the partial glide evaluates to. -/
theorem FMASound.get_partial_vol_eq_shape (s : FMASound) (p : Int) (hp : p ≠ 0) :
    s.get_partial_vol p = partial_vol_shape (s.partials_glide.get_value s.pos) p := by
  simp only [FMASound.get_partial_vol, partial_vol_shape, if_neg hp]
  push_cast
  norm_num
  split_ifs with h1 h2
  · have hx : (s.partials_glide.get_value s.pos - ((p : ℚ) - 1) / 4) * 4 < 1 := by linarith
    have hx0 : 0 ≤ (s.partials_glide.get_value s.pos - ((p : ℚ) - 1) / 4) * 4 := by linarith
    rw [min_eq_right (le_of_lt hx), max_eq_right hx0]
    ring
  · have hx : 1 ≤ (s.partials_glide.get_value s.pos - ((p : ℚ) - 1) / 4) * 4 := by linarith
    rw [min_eq_left hx, max_eq_right (by norm_num)]
    ring
  · have hx : (s.partials_glide.get_value s.pos - ((p : ℚ) - 1) / 4) * 4 ≤ 0 := by linarith
    rw [min_eq_right (le_trans hx (by norm_num)), max_eq_left hx]
    ring

/-- The cross-fade shape lies in `[0, 0.7]`. -/
theorem partial_vol_shape_range (a : ℚ) (p : Int) :
    0 ≤ partial_vol_shape a p ∧ partial_vol_shape a p ≤ 7 / 10 := by
  unfold partial_vol_shape
  have h0 : (0 : ℚ) ≤ max 0 (min 1 ((a - ((p : ℚ) - 1) / ((PARTIALS : ℚ) - 1)) *
      ((PARTIALS : ℚ) - 1))) := le_max_left _ _
  have h1 : max 0 (min 1 ((a - ((p : ℚ) - 1) / ((PARTIALS : ℚ) - 1)) *
      ((PARTIALS : ℚ) - 1))) ≤ 1 := max_le (by norm_num) (min_le_left _ _)
  constructor <;> nlinarith

/-- The cross-fade shape is non-decreasing in the amount. -/
theorem partial_vol_shape_mono (a b : ℚ) (p : Int) (hab : a ≤ b) :
    partial_vol_shape a p ≤ partial_vol_shape b p := by
  unfold partial_vol_shape
  have hx : (a - ((p : ℚ) - 1) / ((PARTIALS : ℚ) - 1)) * ((PARTIALS : ℚ) - 1) ≤
      (b - ((p : ℚ) - 1) / ((PARTIALS : ℚ) - 1)) * ((PARTIALS : ℚ) - 1) := by
    have : (0 : ℚ) ≤ (PARTIALS : ℚ) - 1 := by norm_num
    nlinarith
  have := max_le_max (le_refl (0 : ℚ)) (min_le_min (le_refl (1 : ℚ)) hx)
  linarith

/-- The cross-fade shape changes by at most `0.7 * (PARTIALS - 1) = 2.8` times
the change of the amount, so it has no jump. -/
theorem partial_vol_shape_lipschitz (a b : ℚ) (p : Int) :
    |partial_vol_shape b p - partial_vol_shape a p| ≤ 14 / 5 * |b - a| := by
  have key : ∀ x y : ℚ, x ≤ y →
      partial_vol_shape y p - partial_vol_shape x p ≤ 14 / 5 * (y - x) := by
    intro x y hxy
    unfold partial_vol_shape
    have hP : ((PARTIALS : ℚ) - 1) = 4 := by norm_num
    rw [hP]
    rcases le_total ((x - ((p : ℚ) - 1) / 4) * 4) 0 with hx0 | hx0 <;>
    rcases le_total ((x - ((p : ℚ) - 1) / 4) * 4) 1 with hx1 | hx1 <;>
    rcases le_total ((y - ((p : ℚ) - 1) / 4) * 4) 0 with hy0 | hy0 <;>
    rcases le_total ((y - ((p : ℚ) - 1) / 4) * 4) 1 with hy1 | hy1 <;>
    simp only [min_eq_left, min_eq_right, max_eq_left, max_eq_right, hx0, hx1, hy0, hy1,
      le_refl, zero_le_one] <;>
    linarith
  rcases le_total a b with hab | hab
  · have hm := partial_vol_shape_mono a b p hab
    rw [abs_of_nonneg (by linarith), abs_of_nonneg (by linarith)]
    exact key a b hab
  · have hm := partial_vol_shape_mono b a p hab
    rw [abs_of_nonpos (by linarith), abs_of_nonpos (by linarith)]
    have := key b a hab
    linarith

/-- C17: partial cross-fade shape. For every partial `p` in `1..PARTIALS-1`
and every amount `a` the partial-amount glide evaluates to, `get_partial_vol p`
equals `0.7 * clamp((a - (p-1)/(PARTIALS-1)) * (PARTIALS-1), 0, 1)`. Hence it
lies in `[0, 0.7]`, is `0` for `a` at or below the lower edge `(p-1)/4` of
region `p`, is `0.7` for `a` at or above the upper edge `p/4`, is
non-decreasing in `a`, and changes by at most `2.8` times the change of `a`,
so it has no jump at either edge. -/
theorem FMASound.partial_cross_fade (s : FMASound) (p : Int) (hp1 : 1 ≤ p)
    (_hp4 : p ≤ (PARTIALS : Int) - 1) :
    s.get_partial_vol p =
      7 / 10 * max 0 (min 1 ((s.partials_glide.get_value s.pos -
        ((p : ℚ) - 1) / ((PARTIALS : ℚ) - 1)) * ((PARTIALS : ℚ) - 1))) ∧
    0 ≤ s.get_partial_vol p ∧ s.get_partial_vol p ≤ 7 / 10 ∧
    (s.partials_glide.get_value s.pos ≤ ((p : ℚ) - 1) / 4 → s.get_partial_vol p = 0) ∧
    ((p : ℚ) / 4 ≤ s.partials_glide.get_value s.pos → s.get_partial_vol p = 7 / 10) ∧
    (∀ t : FMASound, s.partials_glide.get_value s.pos ≤ t.partials_glide.get_value t.pos →
      s.get_partial_vol p ≤ t.get_partial_vol p) ∧
    (∀ t : FMASound, |t.get_partial_vol p - s.get_partial_vol p| ≤
      14 / 5 * |t.partials_glide.get_value t.pos - s.partials_glide.get_value s.pos|) := by
  have hp : p ≠ 0 := by omega
  have hs : ∀ u : FMASound,
      u.get_partial_vol p = partial_vol_shape (u.partials_glide.get_value u.pos) p :=
    fun u => u.get_partial_vol_eq_shape p hp
  refine ⟨?_, ?_, ?_, ?_, ?_, ?_, ?_⟩
  · rw [hs s]; rfl
  · rw [hs s]; exact (partial_vol_shape_range _ p).1
  · rw [hs s]; exact (partial_vol_shape_range _ p).2
  · intro h
    rw [hs s]
    unfold partial_vol_shape
    have hx : (s.partials_glide.get_value s.pos - ((p : ℚ) - 1) / ((PARTIALS : ℚ) - 1)) *
        ((PARTIALS : ℚ) - 1) ≤ 0 := by
      have hP : ((PARTIALS : ℚ) - 1) = 4 := by norm_num
      rw [hP]; linarith
    rw [min_eq_right (le_trans hx (by norm_num)), max_eq_left hx]
    norm_num
  · intro h
    rw [hs s]
    unfold partial_vol_shape
    have hx : 1 ≤ (s.partials_glide.get_value s.pos - ((p : ℚ) - 1) / ((PARTIALS : ℚ) - 1)) *
        ((PARTIALS : ℚ) - 1) := by
      have hP : ((PARTIALS : ℚ) - 1) = 4 := by norm_num
      rw [hP]; linarith
    rw [min_eq_left hx, max_eq_right (by norm_num)]
    norm_num
  · intro t h
    rw [hs s, hs t]
    exact partial_vol_shape_mono _ _ p h
  · intro t
    rw [hs s, hs t]
    exact partial_vol_shape_lipschitz _ _ p

/-- Witness for C17: partial `2` of a sound whose amount glide rests at `3/8`,
the middle of region `2`, has a volume in `[0, 0.7]`, and a sound whose amount
rests at `1/2`, the upper edge of region `2`, has volume `0.7`. -/
theorem FMASound.partial_cross_fade_witness :
    (0 ≤ ({ FMASound.new (fun _ => 0) with partials_glide := Glide.mk 0 (3 / 8) (3 / 8) 10 } :
      FMASound).get_partial_vol 2 ∧
    ({ FMASound.new (fun _ => 0) with partials_glide := Glide.mk 0 (3 / 8) (3 / 8) 10 } :
      FMASound).get_partial_vol 2 ≤ 7 / 10) ∧
    ({ FMASound.new (fun _ => 0) with partials_glide := Glide.mk 0 (1 / 2) (1 / 2) 10 } :
      FMASound).get_partial_vol 2 = 7 / 10 :=
  ⟨⟨(FMASound.partial_cross_fade
      { FMASound.new (fun _ => 0) with partials_glide := Glide.mk 0 (3 / 8) (3 / 8) 10 } 2
      (by decide) (by decide)).2.1,
    (FMASound.partial_cross_fade
      { FMASound.new (fun _ => 0) with partials_glide := Glide.mk 0 (3 / 8) (3 / 8) 10 } 2
      (by decide) (by decide)).2.2.1⟩,
   (FMASound.partial_cross_fade
      { FMASound.new (fun _ => 0) with partials_glide := Glide.mk 0 (1 / 2) (1 / 2) 10 } 2
      (by decide) (by decide)).2.2.2.2.1 (by decide!)⟩

/-! ### note_off of a note that is not sounding -/

/-- When no slot holds `note` and no slot is free, `note_off note` releases the
envelope of slot `0` and frees slot `0`. -/
theorem FMASynthStream.note_off_of_full (s : FMASynthStream) (note : Int)
    (hn : ∀ j, s.poly j ≠ note) (hf : ∀ j, s.poly j ≠ -1) :
    (s.note_off note).poly 0 = -1 ∧
    ((s.note_off note).voices 0).voice.env.held = false ∧
    ((s.note_off note).voices 0).voice.env.release_t = (s.voices 0).pos := by
  have hcv : s.choose_voice note = 0 := s.choose_voice_of_full note hn hf
  simp [FMASynthStream.note_off, hcv, FMASound.note_off, Voice.note_off, Env.start_release]

/-- C18 (the code at the failing input): on a fresh engine the notes
`60, 61, 62, 63` are started, so all four slots hold notes, slot `0` holds `60`
with its envelope held, and no slot holds `64`. `note_off 64` nevertheless
changes the slot map, freeing slot `0`, and releases the envelope of slot `0`. -/
theorem FMASynthStream.note_off_unheld_note_releases_slot_zero :
    (∀ i, FMASynthStream.full_pool_example.poly i ≠ 64) ∧
    FMASynthStream.full_pool_example.poly 0 = 60 ∧
    (FMASynthStream.full_pool_example.voices 0).voice.env.held = true ∧
    (FMASynthStream.full_pool_example.note_off 64).poly 0 = -1 ∧
    ((FMASynthStream.full_pool_example.note_off 64).voices 0).voice.env.held = false := by
  decide!

/-! ### Slot map uniqueness -/

/-- Storing `note` in the slot that `choose_voice note` returns keeps the slot
map free of duplicates. -/
theorem FMASynthStream.unique_update_choose_voice (s : FMASynthStream) (note : Int)
    (hu : ∀ i j, i ≠ j → s.poly i = s.poly j → s.poly i = -1) :
    ∀ i j, i ≠ j →
      Function.update s.poly (s.choose_voice note) note i =
        Function.update s.poly (s.choose_voice note) note j →
      Function.update s.poly (s.choose_voice note) note i = -1 := by
  intro i j hij h
  by_cases hi : i = s.choose_voice note
  · have hj : j ≠ s.choose_voice note := fun hj => hij (hi.trans hj.symm)
    rw [hi, Function.update_same, Function.update_noteq hj] at h
    rw [hi, Function.update_same]
    have hcv := (s.choose_voice_holder note ⟨j, h.symm⟩).1
    have := hu (s.choose_voice note) j (fun e => hj e.symm) (hcv.trans h)
    rw [hcv] at this
    exact this
  · by_cases hj : j = s.choose_voice note
    · rw [hj, Function.update_same, Function.update_noteq hi] at h
      rw [Function.update_noteq hi]
      have hcv := (s.choose_voice_holder note ⟨i, h⟩).1
      exact hu i (s.choose_voice note) hi (h.trans hcv.symm)
    · rw [Function.update_noteq hi, Function.update_noteq hj] at h
      rw [Function.update_noteq hi]
      exact hu i j hij h

/-- Freeing a slot keeps the slot map free of duplicates. -/
theorem FMASynthStream.unique_update_free (s : FMASynthStream) (v : Fin POLYPHONY)
    (hu : ∀ i j, i ≠ j → s.poly i = s.poly j → s.poly i = -1) :
    ∀ i j, i ≠ j →
      Function.update s.poly v (-1) i = Function.update s.poly v (-1) j →
      Function.update s.poly v (-1) i = -1 := by
  intro i j hij h
  by_cases hi : i = v
  · rw [hi, Function.update_same]
  · by_cases hj : j = v
    · rw [hj, Function.update_same] at h
      exact h
    · rw [Function.update_noteq hi, Function.update_noteq hj] at h
      rw [Function.update_noteq hi]
      exact hu i j hij h

/-- C19: slot map uniqueness. In every state reachable from a freshly
constructed engine through `reset`, `set_position`, `note_on`, `note_off`,
`set_param` and `gen_sound`, two distinct slots with the same `poly` entry are
both free: for all `i ≠ j`, `poly[i] == poly[j]` implies `poly[i] == -1`. -/
theorem FMASynthStream.slot_map_unique (E : Ext) (s : FMASynthStream)
    (h : FMASynthStream.Reachable E s) :
    ∀ i j, i ≠ j → s.poly i = s.poly j → s.poly i = -1 := by
  induction h with
  | new seed => intro i j _ _; rfl
  | reset s _ _ => intro i j _ _; rfl
  | set_position s p _ ih => exact ih
  | note_on s note velocity _ ih =>
    by_cases hv : velocity = 0
    · have e : s.note_on E note velocity = s.note_off note := by
        simp [FMASynthStream.note_on, hv]
      rw [e, FMASynthStream.note_off_poly]
      exact FMASynthStream.unique_update_free s _ ih
    · rw [FMASynthStream.note_on_poly E s note velocity hv]
      exact FMASynthStream.unique_update_choose_voice s note ih
  | note_off s note _ ih =>
    rw [FMASynthStream.note_off_poly]
    exact FMASynthStream.unique_update_free s _ ih
  | set_param s param value _ ih => exact ih
  | gen_sound s pcm_buf size _ ih =>
    rw [(FMASynthStream.gen_sound_frame E s pcm_buf size).1]
    exact ih

/-- Witness for C19: after `note_on(60, 1)`, `note_on(61, 1)`, one rendered
sample and `note_off(60)` on a fresh engine, slots `0` and `2` have the same
entry, and it is `-1`. -/
theorem FMASynthStream.slot_map_unique_witness :
    (((((FMASynthStream.new (fun _ => 0)).note_on Ext.sample 60 1).note_on Ext.sample 61
      1).gen_sound Ext.sample [0] 1).2.note_off 60).poly 0 = -1 :=
  FMASynthStream.slot_map_unique Ext.sample _
    (.note_off _ 60 (.gen_sound _ [0] 1 (.note_on _ 61 1 (.note_on _ 60 1 (.new _)))))
    0 2 (by decide) (by decide!)

/-! ### Envelope gate changes -/

/-- A held envelope with positive attack time queried at its attack position
returns `init_val`. -/
theorem Env.get_value_held_attack_t (e : Env) (hh : e.held = true) (ha : 0 < e.attack) :
    e.get_value e.attack_t = e.init_val := by
  simp [Env.get_value, u64sub_self, hh, ha]

/-- A released envelope with positive decay time queried at its release position
returns `inter_val`. -/
theorem Env.get_value_released_release_t (e : Env) (hh : e.held = false) (hd : 0 < e.decay) :
    e.get_value e.release_t = e.inter_val := by
  simp [Env.get_value, u64sub_self, hh, hd]

/-- C20: envelope retrigger continuity. For every envelope with `attack > 0` and
`decay > 0`, every position and every velocity, the value at `pos` right after
`start_attack pos velocity` equals the value at `pos` right before it, and the
value at `pos` right after `start_release pos` equals the value at `pos` right
before it. -/
theorem Env.gate_change_continuous (e : Env) (pos : Nat) (velocity : ℚ)
    (ha : 0 < e.attack) (hd : 0 < e.decay) :
    (e.start_attack pos velocity).get_value pos = e.get_value pos ∧
    (e.start_release pos).get_value pos = e.get_value pos :=
  ⟨Env.get_value_held_attack_t (e.start_attack pos velocity) rfl ha,
   Env.get_value_released_release_t (e.start_release pos) rfl hd⟩

/-- Witness for C20: an envelope that was attacked at position `0` toward
velocity `1` (attack and decay 5 ms) is retriggered and released at
position `100`. -/
theorem Env.gate_change_continuous_witness :
    ((Env.mk true 1 0 0 0 0 5 5 1).start_attack 100 (1 / 2)).get_value 100 =
      (Env.mk true 1 0 0 0 0 5 5 1).get_value 100 ∧
    ((Env.mk true 1 0 0 0 0 5 5 1).start_release 100).get_value 100 =
      (Env.mk true 1 0 0 0 0 5 5 1).get_value 100 :=
  Env.gate_change_continuous (Env.mk true 1 0 0 0 0 5 5 1) 100 (1 / 2) (by norm_num)
    (by norm_num)

end GraphDaw
